import Mathlib

/-!
Verification of the form-filling layer of the ai-reverse-recruiter repository.

The Python sources are shallowly embedded: strings are `List Char`, Python
floats are modelled by exact rationals (every comparison proved here is
robust, i.e. far from any rounding boundary), and Playwright DOM queries are
modelled by explicit environment records whose fields hold the values the
queries would return.  Each definition mirrors one Python function and is
named after it where Lean allows.
-/

namespace AIRR

/-- Characters removed by Python `str.strip()` (the whitespace set restricted
to the Latin-1 range, which covers every string handled in this
development). -/
def isPySpace (c : Char) : Bool :=
  c == ' ' || c == '\t' || c == '\n' || c == '\r' ||
  c.toNat == 11 || c.toNat == 12 ||
  c.toNat == 0x1c || c.toNat == 0x1d || c.toNat == 0x1e || c.toNat == 0x1f ||
  c.toNat == 0x85 || c.toNat == 0xa0

/-- Python `str.strip()`: drop leading and trailing whitespace. -/
def pyStrip (s : List Char) : List Char :=
  ((s.dropWhile isPySpace).reverse.dropWhile isPySpace).reverse

/-- Python `str.casefold()` on one character: the Unicode simple case folding
restricted to the Latin-1 range (identity elsewhere), which is exact for the
alphabets appearing in this development.  Uppercase ASCII and the accented
uppercase block `À`–`Þ` (except `×`) map 32 code points up; `ß` folds to
`ss`. -/
def pyCasefoldChar (c : Char) : List Char :=
  if c.toNat = 0xdf then ['s', 's']
  else if ('A' ≤ c ∧ c ≤ 'Z') ∨ (0xc0 ≤ c.toNat ∧ c.toNat ≤ 0xde ∧ c.toNat ≠ 0xd7) then
    [Char.ofNat (c.toNat + 32)]
  else [c]

/-- Python `str.casefold()` on a string. -/
def pyCasefold (s : List Char) : List Char :=
  s.flatMap pyCasefoldChar

/-- Python `str.lower()` on one character, restricted to Latin-1 (identity
elsewhere).  On this range it agrees with `casefold` except at `ß`, which
`lower` keeps. -/
def pyLowerChar (c : Char) : Char :=
  if ('A' ≤ c ∧ c ≤ 'Z') ∨ (0xc0 ≤ c.toNat ∧ c.toNat ≤ 0xde ∧ c.toNat ≠ 0xd7) then
    Char.ofNat (c.toNat + 32)
  else c

/-- Python `str.lower()` on a string. -/
def pyLower (s : List Char) : List Char :=
  s.map pyLowerChar

/-! ### `difflib.SequenceMatcher` (CPython implementation)

`functions_util.string_similarity` is
`SequenceMatcher(None, a.casefold().strip(), b.casefold().strip()).ratio()`.
The matcher below is a direct translation of the CPython source:
`__chain_b` (with `isjunk = None`, so the junk set is empty, and the
`autojunk` heuristic active for `len(b) ≥ 200`), `find_longest_match`
(dynamic programming rows plus the four extension loops; the two junk
extension loops are kept although the junk set is empty),
`get_matching_blocks` (queue recursion) and `ratio`. -/

/-- `autojunk` popularity test from `SequenceMatcher.__chain_b`: with
`len(b) >= 200`, characters occurring more than `len(b) // 100 + 1` times
are dropped from the index. -/
def seqPopular (b : List Char) (c : Char) : Bool :=
  decide (200 ≤ b.length) && decide (b.length / 100 + 1 < (b.filter (· == c)).length)

/-- `b2j`: the ascending list of positions of `c` in `b`, with popular
characters dropped. -/
def seqB2j (b : List Char) (c : Char) : List Nat :=
  if seqPopular b c then []
  else (List.range b.length).filter (fun j => b.getD j default == c)

/-- The running best match of `find_longest_match`:
`(besti, bestj, bestsize)`. -/
structure LM where
  besti : Nat
  bestj : Nat
  bestsize : Nat
  deriving DecidableEq, Repr

/-- One inner-loop step of `find_longest_match`: position `j` of row `i`,
reading the previous row `j2len` and extending the new row `acc.1`.
`k = j2len.get(j-1, 0) + 1` (the Python `-1` key is absent, hence the `j = 0`
guard), and the best triple is replaced when `k > bestsize`. -/
def lmRowStep (i : Nat) (j2len : Nat → Nat)
    (acc : (Nat → Nat) × LM) (j : Nat) : (Nat → Nat) × LM :=
  let k := (if j = 0 then 0 else j2len (j - 1)) + 1
  let nj : Nat → Nat := fun x => if x = j then k else acc.1 x
  let b := if acc.2.bestsize < k then LM.mk (i + 1 - k) (j + 1 - k) k else acc.2
  (nj, b)

/-- One row `i` of the `find_longest_match` dynamic programming: iterate over
the positions of `a[i]` in `b` that lie in `[blo, bhi)` (the Python
`continue`/`break` pair on the ascending index list), starting the new row
from the empty dict. -/
def lmRow (b2j : Char → List Nat) (a : List Char) (blo bhi : Nat)
    (st : (Nat → Nat) × LM) (i : Nat) : (Nat → Nat) × LM :=
  let js := (b2j (a.getD i default)).filter (fun j => decide (blo ≤ j ∧ j < bhi))
  js.foldl (lmRowStep i st.1) (fun _ => 0, st.2)

/-- The dynamic-programming part of `find_longest_match`, rows
`alo, …, ahi-1`, starting from `besti, bestj, bestsize = alo, blo, 0`. -/
def lmDP (b2j : Char → List Nat) (a : List Char) (alo ahi blo bhi : Nat) : LM :=
  ((List.range' alo (ahi - alo)).foldl (lmRow b2j a blo bhi)
    (fun _ => 0, LM.mk alo blo 0)).2

/-- Leftward extension loop of `find_longest_match`: while `besti > alo`,
`bestj > blo`, the predicate `ok` accepts `b[bestj-1]` and
`a[besti-1] == b[bestj-1]`, grow the block one step left.  The fuel bounds
the iteration count; callers pass enough for the loop to run to
completion. -/
def extLeft (a b : List Char) (alo blo : Nat) (ok : Char → Bool) :
    Nat → LM → LM
  | 0, m => m
  | fuel + 1, m =>
    if alo < m.besti ∧ blo < m.bestj ∧
        ok (b.getD (m.bestj - 1) default) = true ∧
        a.get? (m.besti - 1) = b.get? (m.bestj - 1) then
      extLeft a b alo blo ok fuel (LM.mk (m.besti - 1) (m.bestj - 1) (m.bestsize + 1))
    else m

/-- Rightward extension loop of `find_longest_match`, symmetric to
`extLeft`. -/
def extRight (a b : List Char) (ahi bhi : Nat) (ok : Char → Bool) :
    Nat → LM → LM
  | 0, m => m
  | fuel + 1, m =>
    if m.besti + m.bestsize < ahi ∧ m.bestj + m.bestsize < bhi ∧
        ok (b.getD (m.bestj + m.bestsize) default) = true ∧
        a.get? (m.besti + m.bestsize) = b.get? (m.bestj + m.bestsize) then
      extRight a b ahi bhi ok fuel (LM.mk m.besti m.bestj (m.bestsize + 1))
    else m

/-- `SequenceMatcher.find_longest_match` on `[alo, ahi) × [blo, bhi)`:
dynamic programming, then the non-junk extension loops, then the junk
extension loops (the matcher is built with `isjunk = None`, so the junk
set is empty and the last two loops never fire). -/
def findLongestMatch (a b : List Char) (alo ahi blo bhi : Nat) : LM :=
  let bjunk : Char → Bool := fun _ => false
  let m0 := lmDP (seqB2j b) a alo ahi blo bhi
  let m1 := extLeft a b alo blo (fun c => !bjunk c) m0.besti m0
  let m2 := extRight a b ahi bhi (fun c => !bjunk c) (ahi - (m1.besti + m1.bestsize)) m1
  let m3 := extLeft a b alo blo bjunk m2.besti m2
  extRight a b ahi bhi bjunk (ahi - (m3.besti + m3.bestsize)) m3

/-- `SequenceMatcher.get_matching_blocks` (the queue recursion; the final
sort-and-merge pass of CPython only coalesces adjacent blocks and cannot
change the total matched size used by `ratio`).  Each recursive call works
on a strictly smaller `a`-range, so `a.length + 1` fuel always suffices. -/
def matchingBlocks (a b : List Char) : Nat → Nat → Nat → Nat → Nat → List LM
  | 0, _, _, _, _ => []
  | fuel + 1, alo, ahi, blo, bhi =>
    let m := findLongestMatch a b alo ahi blo bhi
    if m.bestsize = 0 then []
    else
      matchingBlocks a b fuel alo m.besti blo m.bestj ++ [m] ++
        matchingBlocks a b fuel (m.besti + m.bestsize) ahi (m.bestj + m.bestsize) bhi

/-- Total number of matched elements over all matching blocks. -/
def matchesTotal (a b : List Char) : Nat :=
  ((matchingBlocks a b (a.length + 1) 0 a.length 0 b.length).map LM.bestsize).sum

/-- `SequenceMatcher.ratio()`: `2*M / T`, and `1.0` when both sequences are
empty (CPython `_calculate_ratio`).  Python computes this in binary floating
point; the rational value is the exact quotient. -/
def seqRatio (a b : List Char) : ℚ :=
  if a.length + b.length = 0 then 1
  else (2 * matchesTotal a b : ℚ) / ((a.length : ℚ) + (b.length : ℚ))

/-- `functions_util.string_similarity`:
`SequenceMatcher(None, a.casefold().strip(), b.casefold().strip()).ratio()`. -/
def string_similarity (a b : List Char) : ℚ :=
  seqRatio (pyStrip (pyCasefold a)) (pyStrip (pyCasefold b))

/-- Position `j` is usable by the DP on `s` vs `s` over `[alo, _)`:
inside the window, inside the string, and not dropped by `autojunk`. -/
def goodAt (s : List Char) (alo j : Nat) : Bool :=
  decide (alo ≤ j) && decide (j < s.length) && !seqPopular s (s.getD j default)

/-- Length of the maximal run of usable positions ending at `j`. -/
def runlen (s : List Char) (alo : Nat) : Nat → Nat
  | 0 => if goodAt s alo 0 then 1 else 0
  | j + 1 => if goodAt s alo (j + 1) then runlen s alo j + 1 else 0

/-- Row index list of the DP on row `i`. -/
def rowJs (s : List Char) (blo bhi i : Nat) : List Nat :=
  (seqB2j s (s.getD i default)).filter (fun j => decide (blo ≤ j ∧ j < bhi))

/-- The state invariant of one DP row on `s` vs `s` over the symmetric window
starting at `alo`: the running best block is diagonal and in range, it
dominates every usable-run length of earlier rows, and the row values are
bounded by the run lengths of their column and of the current row. -/
def RowInv (s : List Char) (alo i : Nat) (st : (Nat → Nat) × LM) : Prop :=
  st.2.besti = st.2.bestj ∧ alo ≤ st.2.besti ∧ st.2.besti + st.2.bestsize ≤ i + 1 ∧
  (∀ r, alo ≤ r → r < i → runlen s alo r ≤ st.2.bestsize) ∧
  (∀ j, st.1 j ≤ runlen s alo j) ∧ (∀ j, st.1 j ≤ runlen s alo i)

/-- The invariant of the DP after its first `cnt` rows: the best block is
diagonal, in range, and dominates every usable-run length seen so far; the
current row values are bounded by their column runs and by the run of the
last processed row, whose diagonal entry is exact. -/
def DPInv (s : List Char) (alo cnt : Nat) (st : (Nat → Nat) × LM) : Prop :=
  st.2.besti = st.2.bestj ∧ alo ≤ st.2.besti ∧ st.2.besti + st.2.bestsize ≤ alo + cnt ∧
  (∀ r, alo ≤ r → r < alo + cnt → runlen s alo r ≤ st.2.bestsize) ∧
  (∀ j, st.1 j ≤ runlen s alo j) ∧
  (∀ j, st.1 j ≤ (if cnt = 0 then 0 else runlen s alo (alo + cnt - 1))) ∧
  (0 < cnt → st.1 (alo + cnt - 1) = runlen s alo (alo + cnt - 1))

/-! ### `AriaComboBoxField.click_all_optgroups` (FieldClass.py)

The open listbox panel is modelled as the list of its option groups in
panel order, each group being the list of its rendered option texts.
Re-open/retry plumbing aside, the loop expands each group, takes the fast
path when an option text contains `"linkedin"` (returning `True` without
clicking), otherwise scores every option against the constant string
`"linkedin"` and clicks the best one when its score reaches `0.7`. -/

/-- Python `sub in s`: contiguous-substring test. -/
def pyContains (s sub : List Char) : Bool :=
  (List.range (s.length + 1)).any (fun i => (s.drop i).take sub.length == sub)

/-- Fast path of `click_all_optgroups`: some rendered option text of the
group contains `"linkedin"` (stripped, casefolded). -/
def fastPathHit (texts : List (List Char)) : Bool :=
  texts.any (fun t => pyContains (pyCasefold (pyStrip t)) "linkedin".data)

/-- The best-option loop of `click_all_optgroups` (and, with a different
start score, of `click_best_option`): fold over the option indices, keeping
the first index whose similarity to `target` strictly exceeds the running
best, which starts at `start` (`-1.0` resp. `0.0` in the source). -/
def bestOptionIdx (target : List Char) (start : ℚ) (texts : List (List Char)) :
    Option Nat × ℚ :=
  (List.range texts.length).foldl
    (fun acc oi =>
      let txt := pyStrip (texts.getD oi [])
      let score := string_similarity txt target
      if acc.2 < score then (some oi, score) else acc)
    (none, start)

/-- The group loop of `click_all_optgroups`, starting at group index `gi`:
fast path, else best option vs `"linkedin"`, clicked when the best score is
at least `0.7`; otherwise the next group.  The result pairs the Python
return value with the option clicked (group index, option index), `none`
when no option was clicked. -/
def clickGroupsFrom : List (List (List Char)) → Nat → Bool × Option (Nat × Nat)
  | [], _ => (true, none)
  | g :: rest, gi =>
    if fastPathHit g then (true, none)
    else
      match (bestOptionIdx "linkedin".data (-1) g).1 with
      | some oi =>
        if 7/10 ≤ (bestOptionIdx "linkedin".data (-1) g).2 then (true, some (gi, oi))
        else clickGroupsFrom rest (gi + 1)
      | none => clickGroupsFrom rest (gi + 1)

/-- `AriaComboBoxField.click_all_optgroups`: `False` when the panel has no
groups, else the group loop. -/
def click_all_optgroups (groups : List (List (List Char))) : Bool × Option (Nat × Nat) :=
  if groups.length = 0 then (false, none) else clickGroupsFrom groups 0

/-- `AriaComboBoxField.click_best_option`: no options → `False`; else click
the best-scoring option against the target value, provided some score
strictly exceeds the starting best of `0.0`. -/
def click_best_option (options : List (List Char)) (value : List Char) : Bool × Option Nat :=
  if options.length = 0 then (false, none)
  else
    match (bestOptionIdx value 0 options).1 with
    | some i => (true, some i)
    | none => (false, none)

/-! ### The field classifier (input_types.py)

A DOM element is its (lowercased) tag name plus its attribute list; the
surrounding document is a record of the counts that the classifier's
Playwright queries would return. -/

/-- String versions of the Latin-1 `strip`/`lower` helpers. -/
def pyStripStr (s : String) : String := ⟨pyStrip s.data⟩

def pyLowerStr (s : String) : String := ⟨pyLower s.data⟩

/-- A DOM element as seen by the classifier. -/
structure Elem where
  tag : String
  attrs : List (String × String)
  deriving Repr

/-- Playwright `get_attribute`: `none` when the attribute is absent. -/
def getAttribute (el : Elem) (name : String) : Option String :=
  (el.attrs.find? (fun p => p.1 == name)).map Prod.snd

/-- `input_types._attr`: `get_attribute` with `""` for absent values. -/
def _attr (el : Elem) (name : String) : String :=
  (getAttribute el name).getD ""

/-- The document counts consulted by the classifier. -/
structure Dom where
  datalistCount : String → Nat
  idCount : String → Nat
  optionCountIn : String → Nat
  listboxCountIn : String → Nat
  liCountIn : String → Nat
  nearbyCustomDropdown : Bool

/-- `input_types._has_datalist`. -/
def _has_datalist (ctx : Dom) (el : Elem) : Bool :=
  let list_id := pyStripStr (_attr el "list")
  if list_id = "" then false
  else decide (0 < ctx.datalistCount list_id)

/-- `input_types._proper_aria_combobox`. -/
def _proper_aria_combobox (el : Elem) : Bool :=
  let role := pyLowerStr (_attr el "role")
  let haspopup := pyLowerStr (_attr el "aria-haspopup")
  role == "combobox" || haspopup == "listbox"

/-- `input_types._aria_combobox_like`. -/
def _aria_combobox_like (el : Elem) : Bool :=
  let role := pyLowerStr (_attr el "role")
  let aria_auto := pyLowerStr (_attr el "aria-autocomplete")
  role == "combobox" || aria_auto == "list" || aria_auto == "both" || aria_auto == "inline"

/-- `input_types._aria_listbox_wired`. -/
def _aria_listbox_wired (ctx : Dom) (el : Elem) : Bool :=
  let lb0 := _attr el "aria-controls"
  let lb := pyStripStr (if lb0 = "" then _attr el "aria-owns" else lb0)
  if lb = "" then false
  else if ctx.idCount lb = 0 then false
  else decide (0 < ctx.optionCountIn lb) || decide (0 < ctx.listboxCountIn lb) ||
    decide (0 < ctx.liCountIn lb)

/-- The `InputType` enum of FieldClass.py. -/
inductive InputType where
  | NOT_FOUND
  | TEXTBOX
  | TEXTAREA
  | CHECKBOX
  | RADIO
  | SELECT
  | COMBOBOX
  | CUSTOM_COMBOBOX
  | DATE
  | NUMBER
  deriving DecidableEq, Repr

/-- `input_types._classify_field`. -/
def _classify_field (ctx : Dom) (el : Elem) : InputType :=
  let tag := el.tag
  if tag == "select" then InputType.COMBOBOX
  else if tag == "input" && _has_datalist ctx el then InputType.COMBOBOX
  else if _proper_aria_combobox el then InputType.COMBOBOX
  else if _aria_combobox_like el then
    (if _aria_listbox_wired ctx el then InputType.COMBOBOX else InputType.CUSTOM_COMBOBOX)
  else if tag == "input" then
    (if ctx.nearbyCustomDropdown then InputType.CUSTOM_COMBOBOX else InputType.TEXTBOX)
  else InputType.TEXTBOX

/-- The concrete `Field` subclasses of FieldClass.py. -/
inductive FieldClass where
  | NotFoundField
  | TextField
  | TextAreaField
  | NumberField
  | DateField
  | CheckboxField
  | RadioField
  | SelectField
  | AriaComboBoxField
  | CustomComboBoxField
  deriving DecidableEq, Repr

/-- `input_types.FIELD_REGISTRY`. -/
def FIELD_REGISTRY : InputType → FieldClass
  | InputType.NOT_FOUND => FieldClass.NotFoundField
  | InputType.TEXTBOX => FieldClass.TextField
  | InputType.TEXTAREA => FieldClass.TextAreaField
  | InputType.NUMBER => FieldClass.NumberField
  | InputType.DATE => FieldClass.DateField
  | InputType.CHECKBOX => FieldClass.CheckboxField
  | InputType.RADIO => FieldClass.RadioField
  | InputType.SELECT => FieldClass.SelectField
  | InputType.COMBOBOX => FieldClass.AriaComboBoxField
  | InputType.CUSTOM_COMBOBOX => FieldClass.CustomComboBoxField

/-! ### Option resolution and the fillers (FieldClass.py)

Playwright queries are modelled by environment records; each filler is a
function of its element reference (`none` when the field was not found),
its context and its environment, returning the interactions performed (and
an error for the paths on which the Python code raises). -/

/-- One Playwright interaction performed by a filler. -/
inductive Act where
  | ensureVisible
  | click
  | fillText (v : String)
  | typeText (v : String)
  | check
  | uncheck
  | selectOption (v : String)
  | press (k : String)
  deriving DecidableEq, Repr

/-- An option-like rendered element: its explicit `role` attribute (if any),
its implicit ARIA role (`"option"` for a native `<option>`), its accessible
name and its rendered text. -/
structure OptionElem where
  roleAttr : Option String
  implicitRole : String
  accName : String
  text : String
  deriving DecidableEq, Repr

/-- The ARIA role Playwright computes for the element. -/
def computedRole (o : OptionElem) : String :=
  o.roleAttr.getD o.implicitRole

/-- Playwright `get_by_role("option", name=value, exact=True)`: computed
role `option`, accessible name equal to the value — exact matching is
case-sensitive and whole-string, up to whitespace trimming. -/
def getByRoleOptionExact (ctx : List OptionElem) (value : String) : List Nat :=
  (List.range ctx.length).filter (fun i =>
    match ctx.get? i with
    | some o => computedRole o == "option" && pyStripStr o.accName == pyStripStr value
    | none => false)

/-- Playwright `locator("[role='option']", has_text=value)`: an explicit
`role="option"` attribute, rendered text containing the value as a
case-insensitive substring. -/
def optionRoleAttrHasText (ctx : List OptionElem) (value : String) : List Nat :=
  (List.range ctx.length).filter (fun i =>
    match ctx.get? i with
    | some o => o.roleAttr == some "option" &&
        pyContains (pyLower o.text.data) (pyLower value.data)
    | none => false)

/-- The option-resolution tail of `AriaComboBoxField.fill` with a context:
`get_by_role("option", name=str(value), exact=True)`, falling back to
`locator("[role='option']", has_text=str(value)).first`.  The result is the
element the final `option.click()` hits; `none` means the locator is empty
and the click raises a timeout. -/
def ariaComboResolveOption (ctx : List OptionElem) (value : String) : Option Nat :=
  let byRole := getByRoleOptionExact ctx value
  if byRole.length = 0 then (optionRoleAttrHasText ctx value).head?
  else byRole.head?

/-- Environment of `AriaComboBoxField.fill`. -/
structure AriaEnv where
  innerCount : Nat
  classAttr : Option String
  overlayLikeCount : Nat
  groups : List (List (List Char))
  panelOptions : List (List Char)
  ctxOptions : List OptionElem

/-- `AriaComboBoxField.fill`: open, type into the inner editable, take the
Angular Material path when detected (optgroup loop, then best option),
otherwise resolve a `role=option` element and click it — raising a timeout
when the final locator is empty. -/
def AriaComboBoxField_fill (locator ctx : Option Unit) (env : AriaEnv) (value : String) :
    Except String (List Act) :=
  match locator with
  | none => Except.ok []
  | some _ =>
    let acts1 := [Act.ensureVisible, Act.click] ++
      (if 0 < env.innerCount then [Act.fillText "", Act.typeText value] else [])
    let classes := env.classAttr.getD ""
    let is_angular_material :=
      (["mat-select", "mat-mdc-select", "mat-autocomplete", "mat-mdc-autocomplete"].any
        (fun t => pyContains classes.data t.data)) ||
      (ctx.isSome && decide (0 < env.overlayLikeCount))
    let standard : Except String (List Act) :=
      match ctx with
      | some _ =>
        match ariaComboResolveOption env.ctxOptions value with
        | some _ => Except.ok (acts1 ++ [Act.click])
        | none => Except.error "TimeoutError: option.click() found no [role=option] element"
      | none =>
        match (optionRoleAttrHasText env.ctxOptions value).head? with
        | some _ => Except.ok (acts1 ++ [Act.click])
        | none => Except.error "TimeoutError: option.click() found no [role=option] element"
    if is_angular_material then
      match click_all_optgroups env.groups with
      | (true, clicked) =>
        Except.ok (acts1 ++ (match clicked with | some _ => [Act.click] | none => []))
      | (false, _) =>
        match click_best_option env.panelOptions value.data with
        | (true, _) => Except.ok (acts1 ++ [Act.click])
        | (false, _) => standard
    else standard

/-- Environment of `CustomComboBoxField.fill`. -/
structure CustomEnv where
  innerCount : Nat
  ctxOptions : List OptionElem
  menuItems : List OptionElem
  optionClickOk : Bool
  pressOk : Bool

/-- `CustomComboBoxField.fill`: open, type, click a matching option if one is
found (portal-aware), else press Enter; every failure path is swallowed, so
the filler never raises. -/
def CustomComboBoxField_fill (locator ctx : Option Unit) (env : CustomEnv) (value : String) :
    List Act :=
  match locator with
  | none => []
  | some _ =>
    let acts1 := [Act.ensureVisible, Act.click] ++
      (if 0 < env.innerCount then [Act.fillText "", Act.typeText value] else [])
    let optionHit :=
      match ctx with
      | some _ =>
        (getByRoleOptionExact env.ctxOptions value).head?.isSome ||
        (optionRoleAttrHasText env.ctxOptions value).head?.isSome ||
        (optionRoleAttrHasText env.menuItems value).head?.isSome
      | none => (optionRoleAttrHasText env.ctxOptions value).head?.isSome
    if optionHit && env.optionClickOk then acts1 ++ [Act.click]
    else acts1 ++ [Act.press "Enter"]

/-- `NotFoundField.fill`: intentionally a no-op. -/
def NotFoundField_fill (_value : String) : List Act := []

/-- `TextField.fill`. -/
def TextField_fill (locator : Option Unit) (value : String) : List Act :=
  match locator with
  | none => []
  | some _ => [Act.ensureVisible, Act.fillText "", Act.typeText value]

/-- `TextAreaField.fill`. -/
def TextAreaField_fill (locator : Option Unit) (value : String) : List Act :=
  match locator with
  | none => []
  | some _ => [Act.ensureVisible, Act.fillText "", Act.typeText value]

/-- `NumberField.fill`. -/
def NumberField_fill (locator : Option Unit) (value : String) : List Act :=
  match locator with
  | none => []
  | some _ => [Act.ensureVisible, Act.fillText value]

/-- `DateField.fill`. -/
def DateField_fill (locator : Option Unit) (value : String) : List Act :=
  match locator with
  | none => []
  | some _ => [Act.ensureVisible, Act.fillText value]

/-- `CheckboxField.fill`: `checkedState = none` models `is_checked` raising
(treated as unchecked). -/
def CheckboxField_fill (locator : Option Unit) (desired : Bool)
    (checkedState : Option Bool) : List Act :=
  match locator with
  | none => []
  | some _ =>
    let checked := checkedState.getD false
    if desired && !checked then [Act.ensureVisible, Act.check]
    else if !desired && checked then [Act.ensureVisible, Act.uncheck]
    else [Act.ensureVisible]

/-- `SelectField.fill`: select by value, then by label, then open and click
the option text. -/
def SelectField_fill (locator : Option Unit) (value : String)
    (byValueOk byLabelOk : Bool) : List Act :=
  match locator with
  | none => []
  | some _ =>
    if byValueOk then [Act.ensureVisible, Act.selectOption value]
    else if byLabelOk then [Act.ensureVisible, Act.selectOption value]
    else [Act.ensureVisible, Act.click, Act.click]

/-! ### `RadioField` (FieldClass.py) -/

/-- Python `str.upper()` on one character, restricted to Latin-1 (identity
elsewhere; `ß`, which uppercases to `SS`, does not occur in the values this
is applied to). -/
def pyUpperChar (c : Char) : Char :=
  if ('a' ≤ c ∧ c ≤ 'z') ∨ (0xe0 ≤ c.toNat ∧ c.toNat ≤ 0xfe ∧ c.toNat ≠ 0xf7) then
    Char.ofNat (c.toNat - 32)
  else c

/-- Python `str.capitalize()`: first character uppercased, rest lowercased. -/
def pyCapitalize (s : List Char) : List Char :=
  match s with
  | [] => []
  | c :: rest => pyUpperChar c :: pyLower rest

/-- Python `str.title()` on ASCII-lettered words: uppercase a letter that
follows a non-letter, lowercase the other letters. -/
def pyTitleAux : Bool → List Char → List Char
  | _, [] => []
  | prevAlpha, c :: rest =>
    let isA := c.isAlpha
    let c2 := if isA && !prevAlpha then pyUpperChar c
      else if isA then pyLowerChar c else c
    c2 :: pyTitleAux isA rest

def pyTitle (s : List Char) : List Char := pyTitleAux false s

/-- `RadioField._normalize_yes_no`: `None` and strings normalising to the
empty string default to `"yes"`; the y/n token sets map to `"yes"`/`"no"`;
anything else keeps its stripped, lowercased text. -/
def _normalize_yes_no (value : Option String) : String :=
  let s := pyLowerStr (pyStripStr (value.getD ""))
  if s = "y" ∨ s = "yes" ∨ s = "true" ∨ s = "1" ∨ s = "on" then "yes"
  else if s = "n" ∨ s = "no" ∨ s = "false" ∨ s = "0" ∨ s = "off" then "no"
  else if s = "" then "yes" else s

/-- The value casings tried by tier 2 of `RadioField.fill`
(`{wanted, wanted.capitalize(), wanted.upper(), wanted.lower(),
wanted.title()}`; the Python set deduplicates and iterates in an
unspecified order, which does not affect whether some casing matches). -/
def radioCasings (wanted : String) : List String :=
  [wanted, ⟨pyCapitalize wanted.data⟩, ⟨wanted.data.map pyUpperChar⟩,
   pyLowerStr wanted, ⟨pyTitle wanted.data⟩]

/-- The accessible-name regex of `RadioField.fill`
(`^\s*<wanted>\s*$`, IGNORECASE): the text equals the wanted value up to
surrounding whitespace and letter case. -/
def nameRxMatches (wanted : String) (txt : String) : Bool :=
  pyLower (pyStrip txt.data) == pyLower wanted.data

/-- Environment of the five fallback tiers of `RadioField.fill`: the counts
of the queried locators and the outcomes of `_try_check`/`click` on their
targets. -/
structure RadioEnv where
  roleNameCount : Nat
  roleTextCount : Nat
  checkRole : Bool
  checkText : Bool
  valueCount : String → Nat
  checkValue : String → Bool
  matBtnCount : Nat
  matInnerCount : Nat
  checkMatInner : Bool
  checkMatBtn : Bool
  labelCount : Nat
  labelClickOk : Bool
  labelFor : Option String
  forCount : String → Nat
  checkFor : Bool
  radios : List (String × Bool)

/-- Whether some tier of `RadioField.fill` selects an option, in source
order: ARIA `role=radio` by accessible name (falling back to visible text),
native radios by value attribute across the tried casings, the Angular
Material radio-button pattern, the associated-label tier (click, then the
`for` target), and the last-resort scan of native radios by nearest
ancestor text. -/
def radioAnySuccess (env : RadioEnv) (wanted : String) : Bool :=
  (if 0 < env.roleNameCount then env.checkRole
   else decide (0 < env.roleTextCount) && env.checkText) ||
  (radioCasings wanted).any (fun v => decide (0 < env.valueCount v) && env.checkValue v) ||
  (decide (0 < env.matBtnCount) &&
    ((decide (0 < env.matInnerCount) && env.checkMatInner) || env.checkMatBtn)) ||
  (decide (0 < env.labelCount) && env.labelClickOk) ||
  (decide (0 < env.labelCount) &&
    (match env.labelFor with
     | some fid => decide (0 < env.forCount fid) && env.checkFor
     | none => false)) ||
  env.radios.any (fun r => nameRxMatches wanted r.1 && r.2)

/-- The error message raised when every tier fails (`str(value)` of Python
`None` is `"None"`). -/
def radioErrorMsg (value : Option String) : String :=
  "Radio option not found for value '" ++
    (match value with | some v => v | none => "None") ++ "' within this field."

/-- `RadioField.fill`: a silent no-op without an element reference or a
context; otherwise the fallback tiers in order, raising `ValueError` with
the unmatched value when none selects an option. -/
def RadioField_fill (locator ctx : Option Unit) (env : RadioEnv)
    (value : Option String) : Except String Unit :=
  match locator, ctx with
  | none, _ => Except.ok ()
  | _, none => Except.ok ()
  | some _, some _ =>
    let wanted := _normalize_yes_no value
    if (if 0 < env.roleNameCount then env.checkRole
        else decide (0 < env.roleTextCount) && env.checkText) then Except.ok ()
    else if (radioCasings wanted).any
        (fun v => decide (0 < env.valueCount v) && env.checkValue v) then Except.ok ()
    else if decide (0 < env.matBtnCount) &&
        ((decide (0 < env.matInnerCount) && env.checkMatInner) || env.checkMatBtn) then
      Except.ok ()
    else if decide (0 < env.labelCount) && env.labelClickOk then Except.ok ()
    else if decide (0 < env.labelCount) &&
        (match env.labelFor with
         | some fid => decide (0 < env.forCount fid) && env.checkFor
         | none => false) then Except.ok ()
    else if env.radios.any (fun r => nameRxMatches wanted r.1 && r.2) then Except.ok ()
    else Except.error (radioErrorMsg value)

/-! ### `FillResult` and the fill helpers (function_utils.py, combobox_filler3.py) -/

/-- `function_utils.FillResult`. -/
structure FillResult where
  present : Bool
  filled : Bool
  already_ok : Bool
  deriving DecidableEq, Repr

/-- Environment of `_attempt_on_locator`: `countResult = none` models
`loc.count()` raising (caught by the outer handler); `inputValue = none`
models `input_value` raising (treated as `""`). -/
structure AttemptEnv where
  countResult : Option Nat
  inputValue : Option String
  fillOk : Bool

/-- `function_utils._attempt_on_locator`. -/
def _attempt_on_locator (env : AttemptEnv) (value : String) : FillResult :=
  match env.countResult with
  | none => FillResult.mk true false false
  | some 0 => FillResult.mk false false false
  | some _ =>
    let current := env.inputValue.getD ""
    if pyStripStr current == pyStripStr value then FillResult.mk true false true
    else if env.fillOk then FillResult.mk true true false
    else FillResult.mk true false false

/-- Environment of `pick_location_suggestion`: the final combobox count
after the three fallback locators, whether the focus/fill/suggestion steps
succeed, the suggestion texts, and whether the final click succeeds. -/
structure PickEnv where
  comboCount : Nat
  focusOk : Bool
  fillOk : Bool
  suggestionsOk : Bool
  optionTexts : List String
  clickOk : Bool

/-- `combobox_filler3.pick_location_suggestion`, result-wise: the `FillResult`
returned on each exit path; `none` models the bare `return` taken when the
scored list is empty. -/
def pick_location_suggestion (env : PickEnv) (_value : String) (click_on_best : Bool) :
    Option FillResult :=
  if env.comboCount = 0 then some (FillResult.mk false false false)
  else if !env.focusOk then some (FillResult.mk false false false)
  else if !env.fillOk then some (FillResult.mk true false false)
  else if !env.suggestionsOk then some (FillResult.mk true true false)
  else if env.optionTexts.length = 0 then none
  else if click_on_best then
    (if env.clickOk then some (FillResult.mk true true true)
     else some (FillResult.mk true true false))
  else some (FillResult.mk true false false)

/-- `combobox_filler3.find_combobox_anywhere`, candidate-wise: each entry is
`none` when the candidate is skipped (invisible or raising), otherwise its
`input_value`. -/
def find_combobox_anywhere (cands : List (Option String)) (value : String) :
    Bool × Bool × Bool :=
  match cands with
  | [] => (false, false, false)
  | none :: rest => find_combobox_anywhere rest value
  | some cv :: _ =>
    let current := pyStripStr cv
    if current == value then (true, true, true)
    else if current ≠ "" then (true, true, false)
    else (true, false, false)

/-- `combobox_filler3.try_select_combobox_anywhere`: find a combobox; when it
is not both filled and already correct, delegate to
`pick_location_suggestion` and repack its triple with `present := True`.
(The Python code would crash unpacking the bare `return`; that path is
`none` here.) -/
def try_select_combobox_anywhere (cands : List (Option String)) (env : PickEnv)
    (value : String) : Option FillResult :=
  let r := find_combobox_anywhere cands value
  if !r.1 then some (FillResult.mk false false false)
  else if !r.2.1 || !r.2.2 then
    match pick_location_suggestion env value true with
    | some p => some (FillResult.mk true p.filled p.already_ok)
    | none => none
  else some (FillResult.mk true r.2.1 r.2.2)

/-! ### Token scoring (combobox_filler3.py) -/

/-- NFD accent stripping on lowercase Latin-1 letters (the composed letter
decomposes into its base letter plus combining marks, which
`combobox_filler3._normalize` removes). -/
def stripAccentChar (c : Char) : Char :=
  let n := c.toNat
  if 0xe0 ≤ n ∧ n ≤ 0xe5 then 'a'
  else if n = 0xe7 then 'c'
  else if 0xe8 ≤ n ∧ n ≤ 0xeb then 'e'
  else if 0xec ≤ n ∧ n ≤ 0xef then 'i'
  else if n = 0xf1 then 'n'
  else if 0xf2 ≤ n ∧ n ≤ 0xf6 then 'o'
  else if 0xf9 ≤ n ∧ n ≤ 0xfc then 'u'
  else if n = 0xfd ∨ n = 0xff then 'y'
  else c

/-- `combobox_filler3._normalize`: lowercase, then strip accents. -/
def _normalize (s : List Char) : List Char :=
  (pyLower s).map stripAccentChar

/-- `[a-z0-9]+` run characters. -/
def isWordAZ09 (c : Char) : Bool :=
  ('a' ≤ c && c ≤ 'z') || ('0' ≤ c && c ≤ '9')

/-- `re.findall` of `[a-z0-9]+`: maximal runs, left to right. -/
def wordsAux : List Char → List Char → List (List Char)
  | [], acc => if acc.isEmpty then [] else [acc.reverse]
  | c :: rest, acc =>
    if isWordAZ09 c then wordsAux rest (c :: acc)
    else if acc.isEmpty then wordsAux rest []
    else acc.reverse :: wordsAux rest []

/-- `combobox_filler3._tokens`. -/
def _tokens (s : List Char) : List (List Char) :=
  wordsAux (_normalize s) []

/-- `combobox_filler3._score_option`: `value_tokens_unique` is the caller's
`set(_tokens(value))`, modelled as a duplicate-free list.  The score divides
the overlap by the CANDIDATE token count (floored at 1), and the sort key is
`(score, -len(option_tokens), full_coverage)`. -/
def _score_option (value_tokens_unique : List (List Char))
    (option_tokens : List (List Char)) : ℚ × Int × Bool :=
  let overlap := (value_tokens_unique.filter (fun t => option_tokens.contains t)).length
  let denom := max 1 option_tokens.length
  let score := (overlap : ℚ) / (denom : ℚ)
  let full_coverage := decide (overlap = value_tokens_unique.length)
  (score, -(option_tokens.length : Int), full_coverage)

/-- Python tuple comparison on the sort keys (`reverse=True` ranks by the
opposite of this order; Python `False < True`). -/
def pyKeyLt (k1 k2 : ℚ × Int × Bool) : Prop :=
  k1.1 < k2.1 ∨ (k1.1 = k2.1 ∧ (k1.2.1 < k2.2.1 ∨
    (k1.2.1 = k2.2.1 ∧ k1.2.2 = false ∧ k2.2.2 = true)))

/-! ### Candidate resolution (input_types.py) -/

/-- Word characters of Python `\w` restricted to Latin-1. -/
def isWordChar (c : Char) : Bool :=
  c.isAlphanum || c == '_' ||
  (0xc0 ≤ c.toNat && c.toNat ≤ 0xff && c.toNat != 0xd7 && c.toNat != 0xf7)

/-- `\b…\b` word-boundary check for an occurrence at `i` of length `len`. -/
def wordBoundedAt (s : List Char) (i len : Nat) : Bool :=
  (decide (i = 0) || !isWordChar (s.getD (i - 1) ' ')) &&
  (decide (s.length ≤ i + len) || !isWordChar (s.getD (i + len) ' '))

/-- The phone-label test of `_find_first_matching_field`:
`re.search(r"\b(phone|téléphone|mobile|cell)\b", s, re.I)`. -/
def phoneRegexMatches (s : String) : Bool :=
  let low := pyLower s.data
  ["phone", "téléphone", "mobile", "cell"].any (fun w =>
    (List.range (low.length + 1)).any (fun i =>
      (low.drop i).take w.data.length == w.data && wordBoundedAt low i w.data.length))

/-- The query strategies appended for one synonym by the strong-signal loop
of `_find_first_matching_field`, numbered in source order (5 always, plus 3
for phone-like labels); strategies 8 and 9 are the placeholder/name
fallback loop. -/
def strongStrategyIdxs (s : String) : List Nat :=
  if phoneRegexMatches s then [0, 1, 2, 3, 4, 5, 6, 7] else [0, 1, 2, 3, 4]

/-- The `(synonym, strategy)` pairs, in the order
`_find_first_matching_field` builds its candidate list. -/
def candidateKeys (synonyms : List String) : List (String × Nat) :=
  (synonyms.flatMap (fun s => (strongStrategyIdxs s).map (fun k => (s, k)))) ++
  (synonyms.flatMap (fun s => [(s, 8), (s, 9)]))

/-- One context's query results: `query s k` lists the visibility flags of
the elements matched by strategy `k` under synonym `s`. -/
structure QueryEnv where
  query : String → Nat → List Bool

/-- `input_types._first_visible` on a strategy result: index of the first
visible element. -/
def _first_visible (flags : List Bool) : Option Nat :=
  flags.findIdx? (fun b => b)

/-- `input_types._find_first_matching_field`: the first candidate locator
with a visible element, together with that element. -/
def _find_first_matching_field (env : QueryEnv) (synonyms : List String) :
    Option (String × Nat × Nat) :=
  (candidateKeys synonyms).findSome? (fun p =>
    match _first_visible (env.query p.1 p.2) with
    | some i => some (p.1, p.2, i)
    | none => none)

/-- `input_types.get_field_of`, resolution-wise: the first context (main
page, then child frames) whose candidate search finds a visible element; the
result carries the context index and the hit; `none` is the `NotFoundField`
sentinel path. -/
def get_field_of (ctxs : List QueryEnv) (synonyms : List String) :
    Option (Nat × String × Nat × Nat) :=
  (List.range ctxs.length).findSome? (fun ci =>
    match ctxs.get? ci with
    | some env =>
      match _find_first_matching_field env synonyms with
      | some hit => some (ci, hit)
      | none => none
    | none => none)


/-- Evaluation helper: `string_similarity` on concrete inputs reduces to a
quotient of naturals, which `decide` can compute. -/
theorem string_similarity_eval (a b : List Char) (m la lb : Nat)
    (hm : matchesTotal (pyStrip (pyCasefold a)) (pyStrip (pyCasefold b)) = m)
    (hla : (pyStrip (pyCasefold a)).length = la)
    (hlb : (pyStrip (pyCasefold b)).length = lb)
    (h : la + lb ≠ 0) :
    string_similarity a b = (2 * m : ℚ) / (la + lb) := by
  unfold string_similarity seqRatio
  rw [hm, hla, hlb]
  rw [if_neg h]

example : string_similarity "tide".data "diet".data = 1/4 := by
  rw [string_similarity_eval _ _ 1 4 4 (by decide) (by decide) (by decide) (by norm_num)]
  norm_num

example : string_similarity "diet".data "tide".data = 1/2 := by
  rw [string_similarity_eval _ _ 2 4 4 (by decide) (by decide) (by decide) (by norm_num)]
  norm_num

example : string_similarity "Linkedin".data " linkedin ".data = 1 := by
  rw [string_similarity_eval _ _ 8 8 8 (by decide) (by decide) (by decide) (by norm_num)]
  norm_num

example : string_similarity "linkedia".data "linkedin".data = 7/8 := by
  rw [string_similarity_eval _ _ 7 8 8 (by decide) (by decide) (by decide) (by norm_num)]
  norm_num

example : string_similarity "é".data "e".data = 0 := by
  rw [string_similarity_eval _ _ 0 1 1 (by decide) (by decide) (by decide) (by norm_num)]
  norm_num

/-! ### `ratio` is `1.0` on identical sequences

The dynamic programming of `find_longest_match`, run on `a = b` over a
symmetric window `[alo, ahi) × [alo, ahi)`, always reports a block on the
diagonal; the extension loops then grow that block to the whole window, so
`get_matching_blocks` returns one full-size block and `ratio` is exactly 1.
The invariant tracks, for each position `j`, the length `runlen j` of the
maximal run of non-popular characters ending at `j` inside the window: row
values never exceed it, the diagonal entry attains it, and the running best
dominates every `runlen` seen so far, so no off-diagonal cell can strictly
beat the best and steal the block. -/

theorem goodAt_le (s : List Char) (alo j : Nat) (h : goodAt s alo j = true) : alo ≤ j := by
  unfold goodAt at h
  simp only [Bool.and_eq_true, decide_eq_true_eq] at h
  exact h.1.1

theorem goodAt_lt_length (s : List Char) (alo j : Nat) (h : goodAt s alo j = true) :
    j < s.length := by
  unfold goodAt at h
  simp only [Bool.and_eq_true, decide_eq_true_eq] at h
  exact h.1.2

theorem runlen_le (s : List Char) (alo : Nat) : ∀ j, runlen s alo j ≤ j + 1 - alo := by
  intro j
  induction j with
  | zero =>
    by_cases h : goodAt s alo 0 = true
    · have h1 : alo ≤ 0 := goodAt_le s alo 0 h
      simp only [runlen, h, if_true]
      omega
    · simp [runlen, h]
  | succ j ih =>
    by_cases h : goodAt s alo (j + 1) = true
    · have h1 : alo ≤ j + 1 := goodAt_le s alo (j + 1) h
      simp only [runlen, h, if_true]
      omega
    · simp [runlen, h]

theorem runlen_of_good (s : List Char) (alo j : Nat) (h : goodAt s alo j = true) :
    runlen s alo j = (if j = 0 then 0 else runlen s alo (j - 1)) + 1 := by
  cases j with
  | zero => simp [runlen, h]
  | succ j => simp [runlen, h]

theorem runlen_of_bad (s : List Char) (alo j : Nat) (h : ¬ goodAt s alo j = true) :
    runlen s alo j = 0 := by
  cases j with
  | zero => simp [runlen, h]
  | succ j => simp [runlen, h]

theorem runlen_pos_of_good (s : List Char) (alo j : Nat) (h : goodAt s alo j = true) :
    1 ≤ runlen s alo j := by
  rw [runlen_of_good s alo j h]; omega

theorem mem_seqB2j (b : List Char) (c : Char) (j : Nat) :
    j ∈ seqB2j b c ↔ (seqPopular b c = false ∧ j < b.length ∧ b.getD j default = c) := by
  unfold seqB2j
  by_cases h : seqPopular b c = true
  · simp [h]
  · simp only [Bool.not_eq_true] at h
    simp [h, List.mem_filter, List.mem_range]

theorem seqB2j_sorted (b : List Char) (c : Char) : (seqB2j b c).Pairwise (· < ·) := by
  unfold seqB2j
  by_cases h : seqPopular b c = true
  · simp [h]
  · simp only [h, if_neg]
    exact (List.pairwise_lt_range b.length).filter _

/-- The junk extension loops never fire: the matcher is built with
`isjunk = None`. -/
theorem extLeft_nojunk (a b : List Char) (alo blo : Nat) :
    ∀ fuel m, extLeft a b alo blo (fun _ => false) fuel m = m := by
  intro fuel
  induction fuel with
  | zero => intro m; rfl
  | succ fuel ih =>
    intro m
    unfold extLeft
    simp

theorem extRight_nojunk (a b : List Char) (ahi bhi : Nat) :
    ∀ fuel m, extRight a b ahi bhi (fun _ => false) fuel m = m := by
  intro fuel
  induction fuel with
  | zero => intro m; rfl
  | succ fuel ih =>
    intro m
    unfold extRight
    simp

/-- On `a = b` with a symmetric window, the leftward non-junk extension of a
diagonal block reaches the left edge of the window. -/
theorem extLeft_diag (s : List Char) (alo : Nat) (ok : Char → Bool)
    (hok : ∀ c, ok c = true) :
    ∀ fuel m, m.besti = m.bestj → alo ≤ m.besti → m.besti - alo ≤ fuel →
      extLeft s s alo alo ok fuel m = LM.mk alo alo (m.bestsize + (m.besti - alo)) := by
  intro fuel
  induction fuel with
  | zero =>
    intro m hd h1 h2
    have hia : m.besti = alo := by omega
    show m = LM.mk alo alo (m.bestsize + (m.besti - alo))
    obtain ⟨bi, bj, bs⟩ := m
    simp only at hd hia ⊢
    subst hd
    subst hia
    simp
  | succ fuel ih =>
    intro m hd h1 h2
    unfold extLeft
    by_cases hlt : alo < m.besti
    · rw [if_pos ⟨hlt, by omega, hok _, by rw [hd]⟩]
      rw [ih _ (by simp only; rw [hd]) (by simp only; omega) (by simp only; omega)]
      simp only
      congr 1
      omega
    · have hia : m.besti = alo := by omega
      rw [if_neg (fun hcon => hlt hcon.1)]
      obtain ⟨bi, bj, bs⟩ := m
      simp only at hd hia ⊢
      subst hd
      subst hia
      simp

/-- On `a = b` with a symmetric window, the rightward non-junk extension of a
diagonal block reaches the right edge of the window. -/
theorem extRight_diag (s : List Char) (ahi : Nat) (ok : Char → Bool)
    (hok : ∀ c, ok c = true) :
    ∀ fuel m, m.besti = m.bestj → m.besti + m.bestsize ≤ ahi →
      ahi - (m.besti + m.bestsize) ≤ fuel →
      extRight s s ahi ahi ok fuel m = LM.mk m.besti m.bestj (ahi - m.besti) := by
  intro fuel
  induction fuel with
  | zero =>
    intro m hd h1 h2
    have hsz : m.besti + m.bestsize = ahi := by omega
    show m = LM.mk m.besti m.bestj (ahi - m.besti)
    obtain ⟨bi, bj, bs⟩ := m
    simp only at hd hsz ⊢
    subst hd
    congr 1
    omega
  | succ fuel ih =>
    intro m hd h1 h2
    unfold extRight
    by_cases hlt : m.besti + m.bestsize < ahi
    · rw [if_pos ⟨hlt, by omega, hok _, by rw [hd]⟩]
      rw [ih _ (by simp only; rw [hd]) (by simp only; omega) (by simp only; omega)]
    · have hsz : m.besti + m.bestsize = ahi := by omega
      rw [if_neg (fun hcon => hlt hcon.1)]
      obtain ⟨bi, bj, bs⟩ := m
      simp only at hd hsz ⊢
      subst hd
      congr 1
      omega

theorem goodAt_pop (s : List Char) (alo j : Nat) (h : goodAt s alo j = true) :
    seqPopular s (s.getD j default) = false := by
  unfold goodAt at h
  simp only [Bool.and_eq_true, Bool.not_eq_eq_eq_not, Bool.not_true] at h
  exact h.2

theorem goodAt_intro (s : List Char) (alo j : Nat) (h1 : alo ≤ j) (h2 : j < s.length)
    (h3 : seqPopular s (s.getD j default) = false) : goodAt s alo j = true := by
  unfold goodAt
  rw [h3]
  simp [h1, h2]

theorem lmRow_eq (s : List Char) (blo bhi : Nat) (st : (Nat → Nat) × LM) (i : Nat) :
    lmRow (seqB2j s) s blo bhi st i =
      (rowJs s blo bhi i).foldl (lmRowStep i st.1) (fun _ => 0, st.2) := rfl

theorem mem_rowJs (s : List Char) (alo ahi i j : Nat)
    (hj : j ∈ rowJs s alo ahi i) :
    alo ≤ j ∧ j < ahi ∧ j < s.length ∧ s.getD j default = s.getD i default ∧
      seqPopular s (s.getD i default) = false := by
  unfold rowJs at hj
  rw [List.mem_filter] at hj
  obtain ⟨h1, h2⟩ := hj
  rw [mem_seqB2j] at h1
  simp only [decide_eq_true_eq] at h2
  exact ⟨h2.1, h2.2, h1.2.1, h1.2.2, h1.1⟩

theorem goodAt_of_mem_rowJs (s : List Char) (alo ahi i j : Nat)
    (hj : j ∈ rowJs s alo ahi i) : goodAt s alo j = true := by
  obtain ⟨h1, _, h3, h4, h5⟩ := mem_rowJs s alo ahi i j hj
  exact goodAt_intro s alo j h1 h3 (by rw [h4]; exact h5)

theorem diag_mem_rowJs (s : List Char) (alo ahi i : Nat)
    (hg : goodAt s alo i = true) (hia : i < ahi) : i ∈ rowJs s alo ahi i := by
  unfold rowJs
  rw [List.mem_filter, mem_seqB2j]
  refine ⟨⟨goodAt_pop s alo i hg, goodAt_lt_length s alo i hg, rfl⟩, ?_⟩
  simp only [decide_eq_true_eq]
  exact ⟨goodAt_le s alo i hg, hia⟩

theorem rowJs_sorted (s : List Char) (alo ahi i : Nat) :
    (rowJs s alo ahi i).Pairwise (· < ·) :=
  (seqB2j_sorted s (s.getD i default)).filter _

theorem rowJs_of_bad (s : List Char) (alo ahi i : Nat) (hi : alo ≤ i)
    (hia : i < ahi) (han : ahi ≤ s.length) (hg : ¬ goodAt s alo i = true) :
    rowJs s alo ahi i = [] := by
  have hpop : seqPopular s (s.getD i default) = true := by
    by_cases hp : seqPopular s (s.getD i default) = true
    · exact hp
    · exact absurd (goodAt_intro s alo i hi (by omega) (by simp_all)) hg
  unfold rowJs seqB2j
  rw [if_pos hpop]
  rfl

theorem lmRowStep_eq (i : Nat) (old : Nat → Nat) (nj : Nat → Nat) (m : LM) (q : Nat) :
    lmRowStep i old (nj, m) q =
      (fun x => if x = q then (if q = 0 then 0 else old (q - 1)) + 1 else nj x,
       if m.bestsize < (if q = 0 then 0 else old (q - 1)) + 1 then
         LM.mk (i + 1 - ((if q = 0 then 0 else old (q - 1)) + 1))
           (q + 1 - ((if q = 0 then 0 else old (q - 1)) + 1))
           ((if q = 0 then 0 else old (q - 1)) + 1)
       else m) := rfl

theorem lmRowFold_inv (s : List Char) (alo ahi i : Nat) (old : Nat → Nat)
    (hgood : goodAt s alo i = true)
    (Hcapcol : ∀ j, old j ≤ runlen s alo j)
    (Hk : (if i = 0 then 0 else old (i - 1)) + 1 = runlen s alo i)
    (Hkrow : ∀ j, old j + 1 ≤ runlen s alo i) :
    ∀ (Q : List Nat) (nj : Nat → Nat) (m : LM),
      Q.Pairwise (· < ·) →
      (∀ j ∈ Q, alo ≤ j ∧ j < ahi ∧ goodAt s alo j = true) →
      m.besti = m.bestj → alo ≤ m.besti → m.besti + m.bestsize ≤ i + 1 →
      (∀ r, alo ≤ r → r < i → runlen s alo r ≤ m.bestsize) →
      (∀ j, nj j ≤ runlen s alo j) → (∀ j, nj j ≤ runlen s alo i) →
      (i ∈ Q ∨ (runlen s alo i ≤ m.bestsize ∧ nj i = runlen s alo i)) →
      RowInv s alo i (Q.foldl (lmRowStep i old) (nj, m)) ∧
      (Q.foldl (lmRowStep i old) (nj, m)).1 i = runlen s alo i ∧
      runlen s alo i ≤ (Q.foldl (lmRowStep i old) (nj, m)).2.bestsize ∧
      m.bestsize ≤ (Q.foldl (lmRowStep i old) (nj, m)).2.bestsize := by
  intro Q
  induction Q with
  | nil =>
    intro nj m _ _ hd h1 h2 hlb hc1 hc2 hflag
    rcases hflag with hin | ⟨hfa, hfb⟩
    · exact absurd hin (List.not_mem_nil i)
    · exact ⟨⟨hd, h1, h2, hlb, hc1, hc2⟩, hfb, hfa, le_refl _⟩
  | cons q Q ih =>
    intro nj m hpw hmem hd h1 h2 hlb hc1 hc2 hflag
    rw [List.pairwise_cons] at hpw
    obtain ⟨hq1, hq2, hq3⟩ := hmem q (List.mem_cons_self q Q)
    rw [List.foldl_cons, lmRowStep_eq]
    set K := (if q = 0 then 0 else old (q - 1)) + 1 with hK
    have hkj : K ≤ runlen s alo q := by
      rw [runlen_of_good s alo q hq3, hK]
      by_cases hq0 : q = 0
      · simp [hq0]
      · simp only [hq0, if_false]
        exact Nat.succ_le_succ (Hcapcol (q - 1))
    have hki : K ≤ runlen s alo i := by
      rw [hK]
      by_cases hq0 : q = 0
      · simp only [hq0, if_true]
        exact runlen_pos_of_good s alo i hgood
      · simp only [hq0, if_false]
        exact Hkrow (q - 1)
    rcases Nat.lt_trichotomy q i with hqi | hqi | hqi
    · -- q < i : the best cannot be improved, since runlen q is already dominated
      have hrq : runlen s alo q ≤ m.bestsize := hlb q hq1 hqi
      rw [if_neg (by omega)]
      have hres := ih (fun x => if x = q then K else nj x) m hpw.2
        (fun j hj => hmem j (List.mem_cons_of_mem q hj)) hd h1 h2 hlb
        (fun j => by
          show (if j = q then K else nj j) ≤ runlen s alo j
          by_cases hjq : j = q
          · rw [if_pos hjq, hjq]; exact hkj
          · rw [if_neg hjq]; exact hc1 j)
        (fun j => by
          show (if j = q then K else nj j) ≤ runlen s alo i
          by_cases hjq : j = q
          · rw [if_pos hjq]; exact hki
          · rw [if_neg hjq]; exact hc2 j)
        (?_)
      · exact hres
      · rcases hflag with hin | ⟨hfa, hfb⟩
        · rcases List.mem_cons.mp hin with hin | hin
          · omega
          · exact Or.inl hin
        · refine Or.inr ⟨hfa, ?_⟩
          show (if i = q then K else nj i) = runlen s alo i
          rw [if_neg (by omega : ¬ i = q)]
          exact hfb
    · -- q = i : diagonal entry, attains runlen i exactly
      subst hqi
      rw [Hk] at hK
      by_cases hup : m.bestsize < K
      · rw [if_pos hup]
        have hrle : runlen s alo q ≤ q + 1 - alo := runlen_le s alo q
        have hres := ih (fun x => if x = q then K else nj x)
          (LM.mk (q + 1 - K) (q + 1 - K) K) hpw.2
          (fun j hj => hmem j (List.mem_cons_of_mem q hj))
          rfl (by simp only; omega) (by simp only; omega)
          (fun r hr1 hr2 => by
            have := hlb r hr1 hr2
            simp only
            omega)
          (fun j => by
          show (if j = q then K else nj j) ≤ runlen s alo j
          by_cases hjq : j = q
          · rw [if_pos hjq, hjq]; exact hkj
          · rw [if_neg hjq]; exact hc1 j)
          (fun j => by
          show (if j = q then K else nj j) ≤ runlen s alo q
          by_cases hjq : j = q
          · rw [if_pos hjq]; exact hki
          · rw [if_neg hjq]; exact hc2 j)
          (Or.inr ⟨by simp only; omega, by
            show (if q = q then K else nj q) = runlen s alo q
            rw [if_pos rfl]
            omega⟩)
        refine ⟨hres.1, hres.2.1, hres.2.2.1, ?_⟩
        have := hres.2.2.2
        simp only at this
        omega
      · rw [if_neg hup]
        exact ih (fun x => if x = q then K else nj x) m hpw.2
          (fun j hj => hmem j (List.mem_cons_of_mem q hj)) hd h1 h2 hlb
          (fun j => by
          show (if j = q then K else nj j) ≤ runlen s alo j
          by_cases hjq : j = q
          · rw [if_pos hjq, hjq]; exact hkj
          · rw [if_neg hjq]; exact hc1 j)
          (fun j => by
          show (if j = q then K else nj j) ≤ runlen s alo q
          by_cases hjq : j = q
          · rw [if_pos hjq]; exact hki
          · rw [if_neg hjq]; exact hc2 j)
          (Or.inr ⟨by omega, by
            show (if q = q then K else nj q) = runlen s alo q
            rw [if_pos rfl]
            omega⟩)
    · -- q > i : the diagonal has been processed, so the best already dominates
      have hfl : runlen s alo i ≤ m.bestsize ∧ nj i = runlen s alo i := by
        rcases hflag with hin | hfl
        · rcases List.mem_cons.mp hin with hin | hin
          · omega
          · have := hpw.1 i hin
            omega
        · exact hfl
      rw [if_neg (by omega)]
      exact ih (fun x => if x = q then K else nj x) m hpw.2
        (fun j hj => hmem j (List.mem_cons_of_mem q hj)) hd h1 h2 hlb
        (fun j => by
          show (if j = q then K else nj j) ≤ runlen s alo j
          by_cases hjq : j = q
          · rw [if_pos hjq, hjq]; exact hkj
          · rw [if_neg hjq]; exact hc1 j)
        (fun j => by
          show (if j = q then K else nj j) ≤ runlen s alo i
          by_cases hjq : j = q
          · rw [if_pos hjq]; exact hki
          · rw [if_neg hjq]; exact hc2 j)
        (Or.inr ⟨hfl.1, by
          show (if i = q then K else nj i) = runlen s alo i
          rw [if_neg (by omega : ¬ i = q)]
          exact hfl.2⟩)

theorem lmRow_invariant (s : List Char) (alo ahi i : Nat) (old : Nat → Nat) (m : LM)
    (hi : alo ≤ i) (hia : i < ahi) (han : ahi ≤ s.length)
    (Hcapcol : ∀ j, old j ≤ runlen s alo j)
    (Hk : goodAt s alo i = true → (if i = 0 then 0 else old (i - 1)) + 1 = runlen s alo i)
    (Hkrow : goodAt s alo i = true → ∀ j, old j + 1 ≤ runlen s alo i)
    (hd : m.besti = m.bestj) (h1 : alo ≤ m.besti) (h2 : m.besti + m.bestsize ≤ i)
    (hlb : ∀ r, alo ≤ r → r < i → runlen s alo r ≤ m.bestsize) :
    RowInv s alo i (lmRow (seqB2j s) s alo ahi (old, m) i) ∧
    (lmRow (seqB2j s) s alo ahi (old, m) i).1 i = runlen s alo i ∧
    runlen s alo i ≤ (lmRow (seqB2j s) s alo ahi (old, m) i).2.bestsize ∧
    m.bestsize ≤ (lmRow (seqB2j s) s alo ahi (old, m) i).2.bestsize := by
  rw [lmRow_eq]
  show RowInv s alo i ((rowJs s alo ahi i).foldl (lmRowStep i old) (fun _ => 0, m)) ∧
    ((rowJs s alo ahi i).foldl (lmRowStep i old) (fun _ => 0, m)).1 i = runlen s alo i ∧
    runlen s alo i ≤ ((rowJs s alo ahi i).foldl (lmRowStep i old) (fun _ => 0, m)).2.bestsize ∧
    m.bestsize ≤ ((rowJs s alo ahi i).foldl (lmRowStep i old) (fun _ => 0, m)).2.bestsize
  by_cases hg : goodAt s alo i = true
  · exact lmRowFold_inv s alo ahi i old hg Hcapcol (Hk hg) (Hkrow hg)
      (rowJs s alo ahi i) (fun _ => 0) m (rowJs_sorted s alo ahi i)
      (fun j hj => ⟨(mem_rowJs s alo ahi i j hj).1, (mem_rowJs s alo ahi i j hj).2.1,
        goodAt_of_mem_rowJs s alo ahi i j hj⟩)
      hd h1 (by omega) hlb (fun _ => Nat.zero_le _) (fun _ => Nat.zero_le _)
      (Or.inl (diag_mem_rowJs s alo ahi i hg hia))
  · rw [rowJs_of_bad s alo ahi i hi hia han hg]
    have hrz : runlen s alo i = 0 := runlen_of_bad s alo i hg
    rw [List.foldl_nil]
    exact ⟨⟨hd, h1, by show m.besti + m.bestsize ≤ i + 1; omega, hlb,
      fun _ => Nat.zero_le _, fun _ => Nat.zero_le _⟩,
      by rw [hrz],
      by show runlen s alo i ≤ m.bestsize; rw [hrz]; omega, le_refl _⟩

theorem lmRows_inv (s : List Char) (alo ahi : Nat) (han : ahi ≤ s.length) :
    ∀ cnt, alo + cnt ≤ ahi →
      DPInv s alo cnt ((List.range' alo cnt).foldl (lmRow (seqB2j s) s alo ahi)
        (fun _ => 0, LM.mk alo alo 0)) := by
  intro cnt
  induction cnt with
  | zero =>
    intro _
    rw [show List.range' alo 0 = ([] : List Nat) from rfl, List.foldl_nil]
    exact ⟨rfl, le_refl _, le_refl _, fun r hr1 hr2 => absurd hr2 (by omega),
      fun _ => Nat.zero_le _, fun _ => Nat.zero_le _, fun h => absurd h (by omega)⟩
  | succ cnt ih =>
    intro hle
    have hInv := ih (by omega)
    have hcat : List.range' alo (cnt + 1) = List.range' alo cnt ++ [alo + cnt] := by
      rw [List.range'_concat]
      simp
    rw [hcat, List.foldl_append, List.foldl_cons, List.foldl_nil]
    set st := (List.range' alo cnt).foldl (lmRow (seqB2j s) s alo ahi)
      (fun _ => 0, LM.mk alo alo 0) with hst
    obtain ⟨i1, i2, i3, i4, i5, i6, i7⟩ := hInv
    have hpair : st = (st.1, st.2) := rfl
    rw [hpair]
    have hrow := lmRow_invariant s alo ahi (alo + cnt) st.1 st.2
      (by omega) (by omega) han i5
      (fun hg => ?hk) (fun hg j => ?hkrow) i1 i2 i3 i4
    case hk =>
      rw [runlen_of_good s alo (alo + cnt) hg]
      congr 1
      by_cases hz : alo + cnt = 0
      · rw [if_pos hz, if_pos hz]
      · rw [if_neg hz, if_neg hz]
        rcases Nat.eq_zero_or_pos cnt with hc | hc
        · subst hc
          have ha0 : 0 < alo := by omega
          have hb : ¬ goodAt s alo (alo + 0 - 1) = true := by
            intro hgg
            have := goodAt_le s alo (alo + 0 - 1) hgg
            omega
          have h60 := i6 (alo + 0 - 1)
          rw [if_pos rfl] at h60
          rw [runlen_of_bad s alo (alo + 0 - 1) hb]
          omega
        · have := i7 hc
          have he : alo + (cnt + 1) - 1 - 1 = alo + cnt - 1 := by omega
          have he2 : alo + cnt + 0 = alo + cnt := by omega
          calc st.1 (alo + cnt - 1) = runlen s alo (alo + cnt - 1) := this
            _ = _ := by congr 1
    case hkrow =>
      rcases Nat.eq_zero_or_pos cnt with hc | hc
      · have h6j := i6 j
        rw [hc, if_pos rfl] at h6j
        have := runlen_pos_of_good s alo (alo + cnt) hg
        omega
      · have h6j := i6 j
        rw [if_neg (by omega)] at h6j
        rw [runlen_of_good s alo (alo + cnt) hg, if_neg (by omega)]
        omega
    obtain ⟨⟨r1, r2, r3, r4, r5, r6⟩, rdiag, rbig, rmono⟩ := hrow
    refine ⟨r1, r2, by omega, ?_, r5, ?_, ?_⟩
    · intro r hr1 hr2
      rcases Nat.lt_or_ge r (alo + cnt) with hr | hr
      · exact r4 r hr1 hr
      · have : r = alo + cnt := by omega
        rw [this]
        exact rbig
    · intro j
      rw [if_neg (by omega)]
      have := r6 j
      have he : alo + (cnt + 1) - 1 = alo + cnt := by omega
      rw [he]
      exact this
    · intro _
      have he : alo + (cnt + 1) - 1 = alo + cnt := by omega
      rw [he]
      exact rdiag

theorem lmDP_diag (s : List Char) (alo ahi : Nat) (ha : alo ≤ ahi) (han : ahi ≤ s.length) :
    (lmDP (seqB2j s) s alo ahi alo ahi).besti = (lmDP (seqB2j s) s alo ahi alo ahi).bestj ∧
    alo ≤ (lmDP (seqB2j s) s alo ahi alo ahi).besti ∧
    (lmDP (seqB2j s) s alo ahi alo ahi).besti + (lmDP (seqB2j s) s alo ahi alo ahi).bestsize
      ≤ ahi := by
  obtain ⟨i1, i2, i3, _⟩ := lmRows_inv s alo ahi han (ahi - alo) (by omega)
  exact ⟨i1, i2, by unfold lmDP; omega⟩

/-- On identical sequences over a symmetric window, `find_longest_match`
returns the whole window. -/
theorem findLongestMatch_diag (s : List Char) (alo ahi : Nat) (ha : alo ≤ ahi)
    (han : ahi ≤ s.length) :
    findLongestMatch s s alo ahi alo ahi = LM.mk alo alo (ahi - alo) := by
  obtain ⟨hd, h1, h2⟩ := lmDP_diag s alo ahi ha han
  unfold findLongestMatch
  simp only []
  rw [extLeft_diag s alo (fun _ => !false) (fun _ => rfl) _ _ hd h1 (Nat.sub_le _ _)]
  simp only []
  rw [extRight_diag s ahi (fun _ => !false) (fun _ => rfl)
    (ahi - (alo + ((lmDP (seqB2j s) s alo ahi alo ahi).bestsize +
      ((lmDP (seqB2j s) s alo ahi alo ahi).besti - alo))))
    (LM.mk alo alo ((lmDP (seqB2j s) s alo ahi alo ahi).bestsize +
      ((lmDP (seqB2j s) s alo ahi alo ahi).besti - alo)))
    rfl
    (by show alo + ((lmDP (seqB2j s) s alo ahi alo ahi).bestsize +
      ((lmDP (seqB2j s) s alo ahi alo ahi).besti - alo)) ≤ ahi; omega)
    (le_refl _)]
  simp only []
  rw [extLeft_nojunk, extRight_nojunk]

/-- On identical sequences, the matching blocks cover everything. -/
theorem matchingBlocks_diag (s : List Char) :
    ∀ fuel alo ahi, alo ≤ ahi → ahi ≤ s.length → ahi - alo < fuel →
      ((matchingBlocks s s fuel alo ahi alo ahi).map LM.bestsize).sum = ahi - alo := by
  intro fuel
  induction fuel with
  | zero =>
    intro alo ahi h1 h2 h3
    omega
  | succ fuel ih =>
    intro alo ahi h1 h2 h3
    show ((if (findLongestMatch s s alo ahi alo ahi).bestsize = 0 then [] else
      matchingBlocks s s fuel alo (findLongestMatch s s alo ahi alo ahi).besti alo
          (findLongestMatch s s alo ahi alo ahi).bestj ++
        [findLongestMatch s s alo ahi alo ahi] ++
        matchingBlocks s s fuel
          ((findLongestMatch s s alo ahi alo ahi).besti +
            (findLongestMatch s s alo ahi alo ahi).bestsize) ahi
          ((findLongestMatch s s alo ahi alo ahi).bestj +
            (findLongestMatch s s alo ahi alo ahi).bestsize) ahi).map LM.bestsize).sum =
      ahi - alo
    rw [findLongestMatch_diag s alo ahi h1 h2]
    simp only []
    by_cases hz : ahi - alo = 0
    · rw [if_pos hz]
      simp [hz]
    · rw [if_neg hz]
      have hfp : 0 < fuel := by omega
      have haeq : alo + (ahi - alo) = ahi := by omega
      rw [haeq]
      rw [List.map_append, List.map_append, List.sum_append, List.sum_append]
      rw [ih alo alo (le_refl _) (by omega) (by omega)]
      rw [ih ahi ahi (le_refl _) h2 (by omega)]
      simp

/-- `get_matching_blocks` matches every element of a sequence against
itself. -/
theorem matchesTotal_self (s : List Char) : matchesTotal s s = s.length := by
  unfold matchesTotal
  rw [matchingBlocks_diag s (s.length + 1) 0 s.length (Nat.zero_le _) (le_refl _) (by omega)]
  omega

/-- `SequenceMatcher.ratio()` is exactly `1.0` on two identical sequences;
with both sequences empty this is the explicit `1.0` branch of
`_calculate_ratio`. -/
theorem seqRatio_self (s : List Char) : seqRatio s s = 1 := by
  unfold seqRatio
  by_cases h : s.length + s.length = 0
  · rw [if_pos h]
  · rw [if_neg h, matchesTotal_self]
    have hp : (0:ℚ) < (s.length : ℚ) := by
      have hq : 0 < s.length := by omega
      exact_mod_cast hq
    have hn : ((s.length : ℚ) + (s.length : ℚ)) ≠ 0 := by
      intro hcon
      nlinarith
    field_simp
    ring

theorem string_similarity_self (a : List Char) : string_similarity a a = 1 :=
  seqRatio_self _

theorem seqRatio_nonneg (a b : List Char) : 0 ≤ seqRatio a b := by
  unfold seqRatio
  by_cases h : a.length + b.length = 0
  · rw [if_pos h]
    norm_num
  · rw [if_neg h]
    apply div_nonneg
    · have hm : (0:ℚ) ≤ (matchesTotal a b : ℚ) := Nat.cast_nonneg _
      linarith
    · have h1 : (0:ℚ) ≤ (a.length : ℚ) := Nat.cast_nonneg _
      have h2 : (0:ℚ) ≤ (b.length : ℚ) := Nat.cast_nonneg _
      linarith

theorem string_similarity_nonneg (a b : List Char) : 0 ≤ string_similarity a b :=
  seqRatio_nonneg _ _

theorem pyContains_append (pre v post : List Char) :
    pyContains (pre ++ v ++ post) v = true := by
  unfold pyContains
  rw [List.any_eq_true]
  refine ⟨pre.length, ?_, ?_⟩
  · rw [List.mem_range]
    simp only [List.length_append]
    omega
  · rw [List.append_assoc, List.drop_left, List.take_left]
    simp

/-! ### Claims -/

/-- C2 (counterexample): the Similarity Utility's score is not symmetric —
`score("tide","diet") = 1/4` but `score("diet","tide") = 1/2` — and an
accent difference lowers the score: `score("é","e") = 0 < 1 = score("e","e")`
(the utility casefolds and strips but does not remove diacritics). -/
theorem C2_similarity_claim_false :
    string_similarity "tide".data "diet".data ≠ string_similarity "diet".data "tide".data ∧
    string_similarity "é".data "e".data < string_similarity "e".data "e".data := by
  constructor
  · rw [string_similarity_eval _ _ 1 4 4 (by decide) (by decide) (by decide) (by norm_num),
      string_similarity_eval _ _ 2 4 4 (by decide) (by decide) (by decide) (by norm_num)]
    norm_num
  · rw [string_similarity_eval _ _ 0 1 1 (by decide) (by decide) (by decide) (by norm_num),
      string_similarity_eval _ _ 1 1 1 (by decide) (by decide) (by decide) (by norm_num)]
    norm_num

/-- C2 (amended): `score(a, a) = 1.0` for every string `a` (non-empty or
not), and case differences never change — in particular never lower — the
score: the score depends on its arguments only through their casefolded
forms.  Symmetry and accent insensitivity do not hold (see the
counterexample). -/
theorem C2_similarity_refl_and_case_insensitive :
    (∀ a : List Char, string_similarity a a = 1) ∧
    (∀ a b x y : List Char, pyCasefold a = pyCasefold b → pyCasefold x = pyCasefold y →
      string_similarity a x = string_similarity b y) := by
  refine ⟨fun a => seqRatio_self _, ?_⟩
  intro a b x y hab hxy
  unfold string_similarity
  rw [hab, hxy]

/-- C2 (witness): the amended theorem applied to the concrete pair
`"LINKEDIN"`/`"linkedin"`. -/
theorem C2_similarity_refl_and_case_insensitive_witness :
    pyCasefold "LINKEDIN".data = pyCasefold "linkedin".data ∧
    string_similarity "LINKEDIN".data "x".data = string_similarity "linkedin".data "x".data :=
  ⟨by decide, C2_similarity_refl_and_case_insensitive.2 "LINKEDIN".data "linkedin".data
    "x".data "x".data (by decide) rfl⟩

/-- C3 (counterexample): a `div` with `role="combobox"` and no
`aria-controls`/`aria-owns` wiring is combobox-like and unwired, yet the
classifier returns `COMBOBOX` (via the `_proper_aria_combobox` shortcut),
not `CUSTOM_COMBOBOX` as the claim requires. -/
theorem C3_classifier_claim_false :
    _aria_combobox_like (Elem.mk "div" [("role", "combobox")]) = true ∧
    _aria_listbox_wired
      (Dom.mk (fun _ => 0) (fun _ => 0) (fun _ => 0) (fun _ => 0) (fun _ => 0) false)
      (Elem.mk "div" [("role", "combobox")]) = false ∧
    (Elem.mk "div" [("role", "combobox")]).tag ≠ "select" ∧
    _has_datalist
      (Dom.mk (fun _ => 0) (fun _ => 0) (fun _ => 0) (fun _ => 0) (fun _ => 0) false)
      (Elem.mk "div" [("role", "combobox")]) = false ∧
    _classify_field
      (Dom.mk (fun _ => 0) (fun _ => 0) (fun _ => 0) (fun _ => 0) (fun _ => 0) false)
      (Elem.mk "div" [("role", "combobox")]) = InputType.COMBOBOX ∧
    InputType.COMBOBOX ≠ InputType.CUSTOM_COMBOBOX := by
  refine ⟨by decide, by decide, by decide, by decide, by decide, by decide⟩

/-- C3 (amended): for an element that is not a native select and not a
datalist-wired input, an element with `role=combobox` or
`aria-haspopup=listbox` is classified `COMBOBOX` unconditionally; the
`aria-controls`/`aria-owns` wiring check decides `COMBOBOX` vs
`CUSTOM_COMBOBOX` only for elements that are combobox-like solely through
`aria-autocomplete` (list/both/inline) without triggering the shortcut. -/
theorem C3_classifier_aria_paths :
    ∀ (ctx : Dom) (el : Elem),
      el.tag ≠ "select" →
      ¬ (el.tag = "input" ∧ _has_datalist ctx el = true) →
      (_proper_aria_combobox el = true → _classify_field ctx el = InputType.COMBOBOX) ∧
      (_proper_aria_combobox el = false → _aria_combobox_like el = true →
        _classify_field ctx el =
          (if _aria_listbox_wired ctx el then InputType.COMBOBOX
           else InputType.CUSTOM_COMBOBOX)) := by
  intro ctx el htag hdl
  have h1 : ¬ ((el.tag == "select") = true) := by
    simp only [beq_iff_eq]
    exact htag
  have h2 : ¬ ((el.tag == "input" && _has_datalist ctx el) = true) := by
    simp only [Bool.and_eq_true, beq_iff_eq]
    exact fun hcon => hdl ⟨hcon.1, hcon.2⟩
  constructor
  · intro hp
    unfold _classify_field
    rw [if_neg h1, if_neg h2, if_pos hp]
  · intro hp hlike
    unfold _classify_field
    rw [if_neg h1, if_neg h2, if_neg (by rw [hp]; exact Bool.false_ne_true), if_pos hlike]

/-- C3 (witness): the amended theorem applied to an input that is
combobox-like only through `aria-autocomplete="list"` and wired to a
populated container, classified `COMBOBOX`. -/
theorem C3_classifier_aria_paths_witness :
    (Elem.mk "input" [("aria-autocomplete", "list"), ("aria-controls", "lb")]).tag ≠ "select" ∧
    _classify_field
      (Dom.mk (fun _ => 0) (fun _ => 1) (fun _ => 1) (fun _ => 0) (fun _ => 0) false)
      (Elem.mk "input" [("aria-autocomplete", "list"), ("aria-controls", "lb")]) =
      InputType.COMBOBOX := by
  refine ⟨by decide, ?_⟩
  rw [(C3_classifier_aria_paths
    (Dom.mk (fun _ => 0) (fun _ => 1) (fun _ => 1) (fun _ => 0) (fun _ => 0) false)
    (Elem.mk "input" [("aria-autocomplete", "list"), ("aria-controls", "lb")])
    (by decide) (by decide)).2 (by decide) (by decide)]
  decide

/-- C4: a native `<select>` with options France/Germany and target value
`"france"`.  The classifier does return `COMBOBOX` and the registry
dispatches `AriaComboBoxField`, but that filler's option resolution finds
nothing: the exact accessible-name match is case-sensitive (`"france"` ≠
`"France"`) and the `[role='option']` fallback only matches an explicit
`role` attribute, which native `<option>` elements lack — so `fill` raises a
timeout instead of selecting the France option.  With the exactly-cased
value `"France"` the first query would resolve, confirming the
case-sensitivity divergence. -/
theorem C4_native_select_eval :
    _classify_field
      (Dom.mk (fun _ => 0) (fun _ => 0) (fun _ => 0) (fun _ => 0) (fun _ => 0) false)
      (Elem.mk "select" []) = InputType.COMBOBOX ∧
    FIELD_REGISTRY InputType.COMBOBOX = FieldClass.AriaComboBoxField ∧
    ariaComboResolveOption
      [OptionElem.mk none "option" "France" "France",
       OptionElem.mk none "option" "Germany" "Germany"] "france" = none ∧
    AriaComboBoxField_fill (some ()) (some ())
      (AriaEnv.mk 0 none 0 [] []
        [OptionElem.mk none "option" "France" "France",
         OptionElem.mk none "option" "Germany" "Germany"]) "france" =
      Except.error "TimeoutError: option.click() found no [role=option] element" ∧
    ariaComboResolveOption
      [OptionElem.mk none "option" "France" "France",
       OptionElem.mk none "option" "Germany" "Germany"] "France" = some 0 := by
  refine ⟨by decide, by decide, by decide, by rfl, by decide⟩

/-- C6: every filler strategy is a silent no-op when the field was not
found: with an absent element reference, `fill` returns normally and
performs no interaction with the document. -/
theorem C6_fill_noop_when_not_found :
    (∀ v, NotFoundField_fill v = []) ∧
    (∀ v, TextField_fill none v = []) ∧
    (∀ v, TextAreaField_fill none v = []) ∧
    (∀ v, NumberField_fill none v = []) ∧
    (∀ v, DateField_fill none v = []) ∧
    (∀ d st, CheckboxField_fill none d st = []) ∧
    (∀ v b1 b2, SelectField_fill none v b1 b2 = []) ∧
    (∀ ctx env v, RadioField_fill none ctx env v = Except.ok ()) ∧
    (∀ ctx env v, AriaComboBoxField_fill none ctx env v = Except.ok []) ∧
    (∀ ctx env v, CustomComboBoxField_fill none ctx env v = []) :=
  ⟨fun _ => rfl, fun _ => rfl, fun _ => rfl, fun _ => rfl, fun _ => rfl,
    fun _ _ => rfl, fun _ _ _ => rfl, fun ctx _ _ => by cases ctx <;> rfl,
    fun _ _ _ => rfl, fun _ _ _ => rfl⟩

theorem RadioField_fill_char (env : RadioEnv) (value : Option String) :
    RadioField_fill (some ()) (some ()) env value =
      (if radioAnySuccess env (_normalize_yes_no value) = true then Except.ok ()
       else Except.error (radioErrorMsg value)) := by
  unfold RadioField_fill radioAnySuccess
  by_cases h1 : (if 0 < env.roleNameCount then env.checkRole
      else decide (0 < env.roleTextCount) && env.checkText) = true
  · simp [h1]
  · by_cases h2 : ((radioCasings (_normalize_yes_no value)).any
        (fun v => decide (0 < env.valueCount v) && env.checkValue v)) = true
    · simp [h1, h2]
    · by_cases h3 : (decide (0 < env.matBtnCount) &&
          ((decide (0 < env.matInnerCount) && env.checkMatInner) || env.checkMatBtn)) = true
      · simp [h1, h2, h3]
      · by_cases h4 : (decide (0 < env.labelCount) && env.labelClickOk) = true
        · simp [h1, h2, h3, h4]
        · by_cases h5 : (decide (0 < env.labelCount) &&
              (match env.labelFor with
               | some fid => decide (0 < env.forCount fid) && env.checkFor
               | none => false)) = true
          · simp [h1, h2, h3, h4, h5]
          · by_cases h6 : (env.radios.any
                (fun r => nameRxMatches (_normalize_yes_no value) r.1 && r.2)) = true
            · simp [h1, h2, h3, h4, h5, h6]
            · simp [h1, h2, h3, h4, h5, h6]

/-- C7: `RadioField.fill` raises exactly when no fallback tier selects an
option, and the `ValueError` message then names the unmatched value (it
contains `str(value)` verbatim); when some tier succeeds, `fill` returns
without error. -/
theorem C7_radio_error_iff_all_tiers_fail :
    ∀ (env : RadioEnv) (value : Option String),
      (radioAnySuccess env (_normalize_yes_no value) = false →
        RadioField_fill (some ()) (some ()) env value = Except.error (radioErrorMsg value)) ∧
      (radioAnySuccess env (_normalize_yes_no value) = true →
        RadioField_fill (some ()) (some ()) env value = Except.ok ()) ∧
      pyContains (radioErrorMsg value).data
        (match value with | some v => v.data | none => "None".data) = true := by
  intro env value
  refine ⟨?_, ?_, ?_⟩
  · intro h
    rw [RadioField_fill_char, if_neg]
    rw [h]
    exact Bool.false_ne_true
  · intro h
    rw [RadioField_fill_char, if_pos h]
  · have hmsg : (radioErrorMsg value).data =
        "Radio option not found for value '".data ++
          (match value with | some v => v.data | none => "None".data) ++
          "' within this field.".data := by
      cases value <;> rfl
    rw [hmsg]
    exact pyContains_append _ _ _

/-- C7 (witness): with every tier failing, filling `"maybe"` raises the
`ValueError` naming the value. -/
theorem C7_radio_error_iff_all_tiers_fail_witness :
    radioAnySuccess
      (RadioEnv.mk 0 0 false false (fun _ => 0) (fun _ => false) 0 0 false false 0 false
        none (fun _ => 0) false []) (_normalize_yes_no (some "maybe")) = false ∧
    RadioField_fill (some ()) (some ())
      (RadioEnv.mk 0 0 false false (fun _ => 0) (fun _ => false) 0 0 false false 0 false
        none (fun _ => 0) false []) (some "maybe") =
      Except.error (radioErrorMsg (some "maybe")) :=
  ⟨by decide,
   (C7_radio_error_iff_all_tiers_fail
     (RadioEnv.mk 0 0 false false (fun _ => 0) (fun _ => false) 0 0 false false 0 false
       none (fun _ => 0) false []) (some "maybe")).1 (by decide)⟩

/-- C10: `RadioField._normalize_yes_no` is total and deterministic:
`None` and whitespace-only values default to `"yes"`; the y/n token sets
(any case, surrounding whitespace ignored) map to `"yes"`/`"no"`; any other
value maps to its stripped, lowercased text — and filling a radio field
with an empty value therefore attempts the same selection as filling
`"yes"`. -/
theorem C10_radio_value_normalization :
    _normalize_yes_no none = "yes" ∧
    _normalize_yes_no (some "") = "yes" ∧
    (∀ s : String,
      ((pyLowerStr (pyStripStr s) = "y" ∨ pyLowerStr (pyStripStr s) = "yes" ∨
        pyLowerStr (pyStripStr s) = "true" ∨ pyLowerStr (pyStripStr s) = "1" ∨
        pyLowerStr (pyStripStr s) = "on") → _normalize_yes_no (some s) = "yes") ∧
      ((pyLowerStr (pyStripStr s) = "n" ∨ pyLowerStr (pyStripStr s) = "no" ∨
        pyLowerStr (pyStripStr s) = "false" ∨ pyLowerStr (pyStripStr s) = "0" ∨
        pyLowerStr (pyStripStr s) = "off") → _normalize_yes_no (some s) = "no") ∧
      (pyLowerStr (pyStripStr s) = "" → _normalize_yes_no (some s) = "yes") ∧
      (¬ (pyLowerStr (pyStripStr s) = "y" ∨ pyLowerStr (pyStripStr s) = "yes" ∨
          pyLowerStr (pyStripStr s) = "true" ∨ pyLowerStr (pyStripStr s) = "1" ∨
          pyLowerStr (pyStripStr s) = "on") →
       ¬ (pyLowerStr (pyStripStr s) = "n" ∨ pyLowerStr (pyStripStr s) = "no" ∨
          pyLowerStr (pyStripStr s) = "false" ∨ pyLowerStr (pyStripStr s) = "0" ∨
          pyLowerStr (pyStripStr s) = "off") →
       pyLowerStr (pyStripStr s) ≠ "" →
       _normalize_yes_no (some s) = pyLowerStr (pyStripStr s))) ∧
    (∀ env : RadioEnv,
      RadioField_fill (some ()) (some ()) env (some "  ") = Except.ok () ↔
      RadioField_fill (some ()) (some ()) env (some "yes") = Except.ok ()) := by
  refine ⟨rfl, rfl, ?_, ?_⟩
  · intro s
    refine ⟨?_, ?_, ?_, ?_⟩
    · intro h
      unfold _normalize_yes_no
      simp only [Option.getD_some]
      rw [if_pos h]
    · intro h
      have hne : ¬ (pyLowerStr (pyStripStr s) = "y" ∨ pyLowerStr (pyStripStr s) = "yes" ∨
          pyLowerStr (pyStripStr s) = "true" ∨ pyLowerStr (pyStripStr s) = "1" ∨
          pyLowerStr (pyStripStr s) = "on") := by
        rcases h with h | h | h | h | h <;> rw [h] <;> decide
      unfold _normalize_yes_no
      simp only [Option.getD_some]
      rw [if_neg hne, if_pos h]
    · intro h
      have hne1 : ¬ (pyLowerStr (pyStripStr s) = "y" ∨ pyLowerStr (pyStripStr s) = "yes" ∨
          pyLowerStr (pyStripStr s) = "true" ∨ pyLowerStr (pyStripStr s) = "1" ∨
          pyLowerStr (pyStripStr s) = "on") := by
        rw [h]; decide
      have hne2 : ¬ (pyLowerStr (pyStripStr s) = "n" ∨ pyLowerStr (pyStripStr s) = "no" ∨
          pyLowerStr (pyStripStr s) = "false" ∨ pyLowerStr (pyStripStr s) = "0" ∨
          pyLowerStr (pyStripStr s) = "off") := by
        rw [h]; decide
      unfold _normalize_yes_no
      simp only [Option.getD_some]
      rw [if_neg hne1, if_neg hne2, if_pos h]
    · intro h1 h2 h3
      unfold _normalize_yes_no
      simp only [Option.getD_some]
      rw [if_neg h1, if_neg h2, if_neg h3]
  · intro env
    have hn : _normalize_yes_no (some "  ") = _normalize_yes_no (some "yes") := by decide
    rw [RadioField_fill_char, RadioField_fill_char, hn]
    by_cases h : radioAnySuccess env (_normalize_yes_no (some "yes")) = true
    · rw [if_pos h, if_pos h]
    · rw [if_neg h, if_neg h]
      constructor
      · intro hcon
        exact absurd hcon (by simp)
      · intro hcon
        exact absurd hcon (by simp)

/-- C10 (witness): the normalization theorem applied to `" TRUE "` (maps to
`"yes"`), `"Off"` (maps to `"no"`) and `"Maybe"` (keeps its lowercased
text). -/
theorem C10_radio_value_normalization_witness :
    pyLowerStr (pyStripStr " TRUE ") = "true" ∧
    _normalize_yes_no (some " TRUE ") = "yes" ∧
    _normalize_yes_no (some "Off") = "no" ∧
    _normalize_yes_no (some "Maybe") = "maybe" :=
  ⟨by decide,
   (C10_radio_value_normalization.2.2.1 " TRUE ").1 (by decide),
   (C10_radio_value_normalization.2.2.1 "Off").2.1 (by decide),
   by
     have h := (C10_radio_value_normalization.2.2.1 "Maybe").2.2.2
       (by decide) (by decide) (by decide)
     rw [h]
     decide⟩

/-- C5: every `FillResult` produced by the fill helpers — the direct locator
fill attempt, the location-suggestion picker and the combined combobox
select flow — satisfies `filled ∨ alreadyCorrect → present`. -/
theorem C5_fill_outcome_invariant :
    (∀ env v, ((_attempt_on_locator env v).filled || (_attempt_on_locator env v).already_ok)
        = true → (_attempt_on_locator env v).present = true) ∧
    (∀ env v cb r, pick_location_suggestion env v cb = some r →
      (r.filled || r.already_ok) = true → r.present = true) ∧
    (∀ cands env v r, try_select_combobox_anywhere cands env v = some r →
      (r.filled || r.already_ok) = true → r.present = true) := by
  refine ⟨?_, ?_, ?_⟩
  · intro env v
    unfold _attempt_on_locator
    rcases env.countResult with _ | n
    · simp
    · rcases n with _ | n
      · simp
      · dsimp only
        split_ifs <;> simp
  · intro env v cb r hs hf
    unfold pick_location_suggestion at hs
    split_ifs at hs <;> simp_all <;> subst hs <;> simp_all
  · intro cands env v r hs hf
    unfold try_select_combobox_anywhere at hs
    simp only at hs
    split_ifs at hs
    · simp only [Option.some.injEq] at hs
      subst hs
      simp at hf
    · rcases hp : pick_location_suggestion env v true with _ | p <;> rw [hp] at hs
      · simp at hs
      · simp only [Option.some.injEq] at hs
        subst hs
        rfl
    · simp only [Option.some.injEq] at hs
      subst hs
      rfl

/-- C5 (witness): the invariant applied to a concrete run of the combined
combobox select flow (empty combobox found, suggestion picked and
clicked). -/
theorem C5_fill_outcome_invariant_witness :
    try_select_combobox_anywhere [some ""]
      (PickEnv.mk 1 true true true ["Paris, Île-de-France, France"] true) "Paris" =
      some (FillResult.mk true true true) ∧
    (FillResult.mk true true true).present = true :=
  ⟨by decide,
   C5_fill_outcome_invariant.2.2 [some ""]
     (PickEnv.mk 1 true true true ["Paris, Île-de-France, France"] true) "Paris"
     (FillResult.mk true true true) (by decide) (by decide)⟩

/-- C8 (counterexample): for target `"Paris"` (one distinct token) and
candidate `"Paris France"` (two tokens), the code's score is `1/2` — overlap
divided by the CANDIDATE token count — while the fraction of the target's
distinct tokens present in the candidate is `1`. -/
theorem C8_score_claim_false :
    _tokens "Paris".data = ["paris".data] ∧
    _tokens "Paris France".data = ["paris".data, "france".data] ∧
    (_score_option ["paris".data] ["paris".data, "france".data]).1 = 1/2 ∧
    ((["paris".data].filter
        (fun t => ["paris".data, "france".data].contains t)).length : ℚ) /
      (["paris".data] : List (List Char)).length = 1 ∧
    (1/2 : ℚ) ≠ 1 := by
  refine ⟨by decide, by decide, ?_, ?_, by norm_num⟩
  · unfold _score_option
    rw [show (["paris".data].filter
        (fun t => ["paris".data, "france".data].contains t)).length = 1 from by decide]
    norm_num
  · rw [show (["paris".data].filter
        (fun t => ["paris".data, "france".data].contains t)).length = 1 from by decide]
    norm_num

/-- C8 (amended): the score of `_score_option` is the overlap count — the
number of the target's distinct normalized tokens present in the candidate
— divided by the candidate's token count (floored at one); it always lies
in `[0, 1]`; and the sort key ranks by higher score, then fewer candidate
tokens, then full coverage of the target's tokens. -/
theorem C8_score_option_properties :
    ∀ (vt ot : List (List Char)), vt.Nodup →
      ((_score_option vt ot).1 =
        ((vt.filter (fun t => ot.contains t)).length : ℚ) / ((max 1 ot.length : Nat) : ℚ)) ∧
      (_score_option vt ot).2.1 = -(ot.length : Int) ∧
      ((_score_option vt ot).2.2 = true ↔
        (vt.filter (fun t => ot.contains t)).length = vt.length) ∧
      0 ≤ (_score_option vt ot).1 ∧ (_score_option vt ot).1 ≤ 1 ∧
      (∀ ot2, pyKeyLt (_score_option vt ot2) (_score_option vt ot) ↔
        ((_score_option vt ot2).1 < (_score_option vt ot).1 ∨
         ((_score_option vt ot2).1 = (_score_option vt ot).1 ∧
          (ot.length < ot2.length ∨
           (ot.length = ot2.length ∧ (_score_option vt ot2).2.2 = false ∧
            (_score_option vt ot).2.2 = true))))) := by
  intro vt ot hnd
  have hoverlap : (vt.filter (fun t => ot.contains t)).length ≤ max 1 ot.length := by
    have hsub : ∀ t ∈ vt.filter (fun t => ot.contains t), t ∈ ot := by
      intro t ht
      rw [List.mem_filter] at ht
      exact List.mem_of_elem_eq_true ht.2
    have hndf : (vt.filter (fun t => ot.contains t)).Nodup := hnd.filter _
    have hcard : (vt.filter (fun t => ot.contains t)).length ≤ ot.length := by
      have h1 : (vt.filter (fun t => ot.contains t)).toFinset.card =
          (vt.filter (fun t => ot.contains t)).length := List.toFinset_card_of_nodup hndf
      have h2 : (vt.filter (fun t => ot.contains t)).toFinset ⊆ ot.toFinset := by
        intro x hx
        rw [List.mem_toFinset] at hx ⊢
        exact hsub x hx
      have h3 := Finset.card_le_card h2
      have h4 := ot.toFinset_card_le
      omega
    omega
  refine ⟨rfl, rfl, ?_, ?_, ?_, ?_⟩
  · unfold _score_option
    simp only [decide_eq_true_eq]
  · unfold _score_option
    simp only
    apply div_nonneg
    · exact Nat.cast_nonneg _
    · exact Nat.cast_nonneg _
  · unfold _score_option
    simp only
    rw [div_le_one (by positivity)]
    exact_mod_cast hoverlap
  · intro ot2
    unfold pyKeyLt _score_option
    simp only
    constructor
    · rintro (h | ⟨he, h | ⟨he2, hf1, hf2⟩⟩)
      · exact Or.inl h
      · refine Or.inr ⟨he, Or.inl ?_⟩
        omega
      · refine Or.inr ⟨he, Or.inr ⟨by omega, hf1, hf2⟩⟩
    · rintro (h | ⟨he, h | ⟨he2, hf1, hf2⟩⟩)
      · exact Or.inl h
      · refine Or.inr ⟨he, Or.inl ?_⟩
        omega
      · exact Or.inr ⟨he, Or.inr ⟨by omega, hf1, hf2⟩⟩

/-- C8 (witness): the amended theorem applied to the target tokens of
`"Paris"` and the candidate tokens of `"Paris France"`. -/
theorem C8_score_option_properties_witness :
    (["paris".data] : List (List Char)).Nodup ∧
    (_score_option ["paris".data] ["paris".data, "france".data]).1 =
      ((((["paris".data] : List (List Char)).filter
          (fun t => ["paris".data, "france".data].contains t)).length : ℚ) /
        ((max 1 (["paris".data, "france".data] : List (List Char)).length : Nat) : ℚ)) :=
  ⟨by decide,
   (C8_score_option_properties ["paris".data] ["paris".data, "france".data] (by decide)).1⟩

theorem bestOptionIdx_snoc (target : List Char) (start : ℚ) (ts : List (List Char))
    (t : List Char) :
    bestOptionIdx target start (ts ++ [t]) =
      (if (bestOptionIdx target start ts).2 < string_similarity (pyStrip t) target then
        (some ts.length, string_similarity (pyStrip t) target)
       else bestOptionIdx target start ts) := by
  have hext : (List.range ts.length).foldl
      (fun (acc : Option Nat × ℚ) oi =>
        let txt := pyStrip ((ts ++ [t]).getD oi [])
        let score := string_similarity txt target
        if acc.2 < score then (some oi, score) else acc) (none, start) =
    (List.range ts.length).foldl
      (fun (acc : Option Nat × ℚ) oi =>
        let txt := pyStrip (ts.getD oi [])
        let score := string_similarity txt target
        if acc.2 < score then (some oi, score) else acc) (none, start) := by
    apply List.foldl_ext
    intro acc oi hoi
    rw [List.mem_range] at hoi
    simp only
    rw [List.getD_append ts [t] [] oi hoi]
  unfold bestOptionIdx
  rw [show (ts ++ [t]).length = ts.length + 1 by simp, List.range_succ,
    List.foldl_append, List.foldl_cons, List.foldl_nil, hext]
  simp only
  rw [List.getD_append_right ts [t] [] ts.length (le_refl _), Nat.sub_self]
  simp only [List.getD_cons_zero]

theorem bestOptionIdx_spec (target : List Char) (start : ℚ) :
    ∀ texts : List (List Char),
      ((bestOptionIdx target start texts).1 = none →
        (bestOptionIdx target start texts).2 = start ∧
        ∀ i, i < texts.length →
          string_similarity (pyStrip (texts.getD i [])) target ≤ start) ∧
      (∀ oi, (bestOptionIdx target start texts).1 = some oi →
        oi < texts.length ∧
        string_similarity (pyStrip (texts.getD oi [])) target =
          (bestOptionIdx target start texts).2 ∧
        start < (bestOptionIdx target start texts).2 ∧
        ∀ i, i < texts.length →
          string_similarity (pyStrip (texts.getD i [])) target ≤
            (bestOptionIdx target start texts).2) := by
  intro texts
  induction texts using List.reverseRecOn with
  | nil =>
    refine ⟨fun _ => ⟨rfl, ?_⟩, ?_⟩
    · intro i hi
      simp at hi
    · intro oi h
      simp [bestOptionIdx] at h
  | append_singleton ts t ih =>
    rw [bestOptionIdx_snoc]
    by_cases hup : (bestOptionIdx target start ts).2 < string_similarity (pyStrip t) target
    · rw [if_pos hup]
      refine ⟨fun hcon => absurd hcon (by simp), ?_⟩
      intro oi h
      simp only [Option.some.injEq] at h
      subst h
      have hsb : start < string_similarity (pyStrip t) target := by
        rcases hoi : (bestOptionIdx target start ts).1 with _ | j
        · have h0 := (ih.1 hoi).1
          linarith
        · have h0 := (ih.2 j hoi).2.2.1
          linarith
      refine ⟨by simp, ?_, ?_, ?_⟩
      · rw [List.getD_append_right ts [t] [] ts.length (le_refl _), Nat.sub_self]
        rfl
      · exact hsb
      · intro i hi
        rw [show (ts ++ [t]).length = ts.length + 1 by simp] at hi
        rcases Nat.lt_or_ge i ts.length with hilt | hige
        · rw [List.getD_append ts [t] [] i hilt]
          have hle : string_similarity (pyStrip (ts.getD i [])) target ≤
              (bestOptionIdx target start ts).2 := by
            rcases hoi : (bestOptionIdx target start ts).1 with _ | j
            · have h0 := (ih.1 hoi).2 i hilt
              have h1 := (ih.1 hoi).1
              linarith
            · exact (ih.2 j hoi).2.2.2 i hilt
          linarith
        · have hieq : i = ts.length := by omega
          rw [hieq, List.getD_append_right ts [t] [] ts.length (le_refl _), Nat.sub_self]
          exact le_refl _
    · rw [if_neg hup]
      push_neg at hup
      refine ⟨?_, ?_⟩
      · intro hnone
        obtain ⟨he, hall⟩ := ih.1 hnone
        refine ⟨he, ?_⟩
        intro i hi
        rw [show (ts ++ [t]).length = ts.length + 1 by simp] at hi
        rcases Nat.lt_or_ge i ts.length with hilt | hige
        · rw [List.getD_append ts [t] [] i hilt]
          exact hall i hilt
        · have hieq : i = ts.length := by omega
          rw [hieq, List.getD_append_right ts [t] [] ts.length (le_refl _), Nat.sub_self]
          rw [he] at hup
          exact hup
      · intro oi h
        obtain ⟨hlt, heq, hgt, hall⟩ := ih.2 oi h
        refine ⟨by simp; omega, ?_, hgt, ?_⟩
        · rw [List.getD_append ts [t] [] oi hlt]
          exact heq
        · intro i hi
          rw [show (ts ++ [t]).length = ts.length + 1 by simp] at hi
          rcases Nat.lt_or_ge i ts.length with hilt | hige
          · rw [List.getD_append ts [t] [] i hilt]
            exact hall i hilt
          · have hieq : i = ts.length := by omega
            rw [hieq, List.getD_append_right ts [t] [] ts.length (le_refl _), Nat.sub_self]
            exact hup

theorem clickGroupsFrom_spec :
    ∀ (gs : List (List (List Char))) (gi : Nat),
      (clickGroupsFrom gs gi).1 = true ∧
      (∀ gj oj, (clickGroupsFrom gs gi).2 = some (gj, oj) →
        gi ≤ gj ∧ gj - gi < gs.length ∧
        fastPathHit (gs.getD (gj - gi) []) = false ∧
        (bestOptionIdx "linkedin".data (-1) (gs.getD (gj - gi) [])).1 = some oj ∧
        7/10 ≤ (bestOptionIdx "linkedin".data (-1) (gs.getD (gj - gi) [])).2) ∧
      ((∀ g ∈ gs, fastPathHit g = false ∧
          (bestOptionIdx "linkedin".data (-1) g).2 < 7/10) →
        (clickGroupsFrom gs gi).2 = none) := by
  intro gs
  induction gs with
  | nil =>
    intro gi
    refine ⟨rfl, ?_, fun _ => rfl⟩
    intro gj oj h
    simp [clickGroupsFrom] at h
  | cons g rest ih =>
    intro gi
    unfold clickGroupsFrom
    by_cases hf : fastPathHit g = true
    · rw [if_pos hf]
      refine ⟨rfl, ?_, ?_⟩
      · intro gj oj h
        simp at h
      · intro hall
        exact absurd hf (by rw [(hall g (List.mem_cons_self g rest)).1]; exact Bool.false_ne_true)
    · simp only [Bool.not_eq_true] at hf
      rw [if_neg (by rw [hf]; exact Bool.false_ne_true)]
      rcases hbo : (bestOptionIdx "linkedin".data (-1) g).1 with _ | oi
      · simp only [hbo]
        refine ⟨(ih (gi + 1)).1, ?_, ?_⟩
        · intro gj oj h
          obtain ⟨ha, hb2, hc, hd, he⟩ := (ih (gi + 1)).2.1 gj oj h
          have hgj : gj - gi = (gj - (gi + 1)) + 1 := by omega
          rw [hgj]
          exact ⟨by omega, by simp; omega, hc, hd, he⟩
        · intro hall
          exact (ih (gi + 1)).2.2 (fun g2 hg2 => hall g2 (List.mem_cons_of_mem g hg2))
      · simp only [hbo]
        by_cases hthr : (7:ℚ)/10 ≤ (bestOptionIdx "linkedin".data (-1) g).2
        · rw [if_pos hthr]
          refine ⟨rfl, ?_, ?_⟩
          · intro gj oj h
            simp only [Option.some.injEq, Prod.mk.injEq] at h
            obtain ⟨h1, h2⟩ := h
            subst h1
            subst h2
            refine ⟨le_refl _, ?_, ?_, ?_, ?_⟩
            · rw [Nat.sub_self]
              simp
            · rw [Nat.sub_self, List.getD_cons_zero]
              exact hf
            · rw [Nat.sub_self, List.getD_cons_zero]
              exact hbo
            · rw [Nat.sub_self, List.getD_cons_zero]
              exact hthr
          · intro hall
            have hcon := (hall g (List.mem_cons_self g rest)).2
            linarith
        · rw [if_neg hthr]
          refine ⟨(ih (gi + 1)).1, ?_, ?_⟩
          · intro gj oj h
            obtain ⟨ha, hb2, hc, hd, he⟩ := (ih (gi + 1)).2.1 gj oj h
            have hgj : gj - gi = (gj - (gi + 1)) + 1 := by omega
            rw [hgj]
            exact ⟨by omega, by simp; omega, hc, hd, he⟩
          · intro hall
            exact (ih (gi + 1)).2.2 (fun g2 hg2 => hall g2 (List.mem_cons_of_mem g hg2))

/-- C1 (amended): `click_all_optgroups` processes the groups in panel order,
but scores every rendered option against the FIXED string `"linkedin"` — not
the target value passed to `fill`, which is only used to re-open the
combobox.  Whenever an option is clicked it is a best-scoring option (vs
`"linkedin"`) of the first group whose best score reaches `0.7`; when every
group's best score against `"linkedin"` is below `0.7` and no option text
contains `"linkedin"` (the fast path, which returns without clicking), no
option is clicked. -/
theorem C1_optgroup_selection_properties :
    ∀ groups : List (List (List Char)),
      (∀ gi oi, (click_all_optgroups groups).2 = some (gi, oi) →
        gi < groups.length ∧
        fastPathHit (groups.getD gi []) = false ∧
        (bestOptionIdx "linkedin".data (-1) (groups.getD gi [])).1 = some oi ∧
        7/10 ≤ (bestOptionIdx "linkedin".data (-1) (groups.getD gi [])).2 ∧
        string_similarity (pyStrip ((groups.getD gi []).getD oi [])) "linkedin".data =
          (bestOptionIdx "linkedin".data (-1) (groups.getD gi [])).2 ∧
        (∀ t, t < (groups.getD gi []).length →
          string_similarity (pyStrip ((groups.getD gi []).getD t [])) "linkedin".data ≤
            (bestOptionIdx "linkedin".data (-1) (groups.getD gi [])).2)) ∧
      ((∀ g ∈ groups, fastPathHit g = false ∧
          (bestOptionIdx "linkedin".data (-1) g).2 < 7/10) →
        (click_all_optgroups groups).2 = none) := by
  intro groups
  unfold click_all_optgroups
  by_cases hz : groups.length = 0
  · rw [if_pos hz]
    refine ⟨?_, fun _ => rfl⟩
    intro gi oi h
    simp at h
  · rw [if_neg hz]
    have h := clickGroupsFrom_spec groups 0
    refine ⟨?_, h.2.2⟩
    intro gi oi hc
    have h2 := h.2.1 gi oi hc
    rw [Nat.sub_zero] at h2
    obtain ⟨_, hlen, hfp, hbest, hthr⟩ := h2
    have hspec := (bestOptionIdx_spec "linkedin".data (-1) (groups.getD gi [])).2 oi hbest
    exact ⟨hlen, hfp, hbest, hthr, hspec.2.1, hspec.2.2.2⟩

/-- C1 (counterexample): a grouped panel whose only option is `"linkedia"`,
filled with target value `"france"`.  Every option's similarity to the
target value is below the `0.7` threshold (`score("linkedia","france") =
2/7`), yet the code clicks the option, because it actually scores against
the constant `"linkedin"` (`score("linkedia","linkedin") = 7/8 ≥ 0.7`). -/
theorem C1_optgroup_claim_false :
    click_all_optgroups [["linkedia".data]] = (true, some (0, 0)) ∧
    string_similarity "linkedia".data "france".data < 7/10 ∧
    string_similarity "linkedia".data "linkedin".data = 7/8 := by
  have hs1 : string_similarity "linkedia".data "linkedin".data = 7/8 := by
    rw [string_similarity_eval _ _ 7 8 8 (by decide) (by decide) (by decide) (by norm_num)]
    norm_num
  have hstrip : pyStrip "linkedia".data = "linkedia".data := by decide
  have hb : bestOptionIdx "linkedin".data (-1) ["linkedia".data] = (some 0, 7/8) := by
    unfold bestOptionIdx
    rw [show List.range (["linkedia".data] : List (List Char)).length = [0] from by decide]
    rw [List.foldl_cons, List.foldl_nil]
    simp only [List.getD_cons_zero]
    rw [hstrip, hs1]
    norm_num
  refine ⟨?_, ?_, hs1⟩
  · unfold click_all_optgroups
    rw [if_neg (by decide)]
    unfold clickGroupsFrom
    rw [if_neg (by decide)]
    rw [hb]
    simp only
    rw [if_pos (by norm_num)]
  · rw [string_similarity_eval _ _ 2 8 6 (by decide) (by decide) (by decide) (by norm_num)]
    norm_num

/-- C1 (witness): the amended theorem applied to a one-group panel whose
only option is `"france"`: its best score against `"linkedin"` is `2/7`,
below the threshold, and nothing is clicked. -/
theorem C1_optgroup_selection_properties_witness :
    (∀ g ∈ [["france".data]], fastPathHit g = false ∧
      (bestOptionIdx "linkedin".data (-1) g).2 < 7/10) ∧
    (click_all_optgroups [["france".data]]).2 = none := by
  have hs2 : string_similarity "france".data "linkedin".data = 2/7 := by
    rw [string_similarity_eval _ _ 2 6 8 (by decide) (by decide) (by decide) (by norm_num)]
    norm_num
  have hb2 : bestOptionIdx "linkedin".data (-1) ["france".data] = (some 0, 2/7) := by
    unfold bestOptionIdx
    rw [show List.range (["france".data] : List (List Char)).length = [0] from by decide]
    rw [List.foldl_cons, List.foldl_nil]
    simp only [List.getD_cons_zero]
    rw [show pyStrip "france".data = "france".data from by decide, hs2]
    norm_num
  have hw1 : ∀ g ∈ [["france".data]], fastPathHit g = false ∧
      (bestOptionIdx "linkedin".data (-1) g).2 < 7/10 := by
    intro g hg
    rw [List.mem_singleton] at hg
    subst hg
    refine ⟨by decide, ?_⟩
    rw [hb2]
    norm_num
  exact ⟨hw1, (C1_optgroup_selection_properties [["france".data]]).2 hw1⟩

theorem findSome?_isSome_iff {α β : Type} (f : α → Option β) (l : List α) :
    (l.findSome? f).isSome = true ↔ ∃ x ∈ l, (f x).isSome = true := by
  induction l with
  | nil => simp [List.findSome?]
  | cons a l ih =>
    rw [List.findSome?_cons]
    rcases hfa : f a with _ | b
    · simp only [List.mem_cons]
      constructor
      · intro h
        obtain ⟨x, hx, hfx⟩ := ih.mp h
        exact ⟨x, Or.inr hx, hfx⟩
      · rintro ⟨x, hx | hx, hfx⟩
        · subst hx
          rw [hfa] at hfx
          simp at hfx
        · exact ih.mpr ⟨x, hx, hfx⟩
    · simp only [Option.isSome_some, true_iff]
      exact ⟨a, List.mem_cons_self a l, by rw [hfa]; rfl⟩

theorem mem_candidateKeys (synonyms : List String) (s : String) (k : Nat) :
    (s, k) ∈ candidateKeys synonyms ↔
      s ∈ synonyms ∧ (k ∈ strongStrategyIdxs s ∨ k = 8 ∨ k = 9) := by
  unfold candidateKeys
  rw [List.mem_append]
  simp only [List.mem_flatMap, List.mem_map, List.mem_cons, List.mem_singleton,
    Prod.mk.injEq]
  constructor
  · rintro (⟨s2, hs2, k2, hk2, he1, he2⟩ | ⟨s2, hs2, he⟩)
    · subst he1
      subst he2
      exact ⟨hs2, Or.inl hk2⟩
    · rcases he with ⟨he1, he2⟩ | ⟨he1, he2⟩ | h
      · subst he1
        subst he2
        exact ⟨hs2, Or.inr (Or.inl rfl)⟩
      · subst he1
        subst he2
        exact ⟨hs2, Or.inr (Or.inr rfl)⟩
      · exact absurd h (List.not_mem_nil _)
  · rintro ⟨hs, hk | hk | hk⟩
    · exact Or.inl ⟨s, hs, k, hk, rfl, rfl⟩
    · subst hk
      exact Or.inr ⟨s, hs, Or.inl ⟨rfl, rfl⟩⟩
    · subst hk
      exact Or.inr ⟨s, hs, Or.inr (Or.inl ⟨rfl, rfl⟩)⟩

theorem find_first_matching_field_isSome_iff (env : QueryEnv) (synonyms : List String) :
    (_find_first_matching_field env synonyms).isSome = true ↔
      ∃ s ∈ synonyms, ∃ k, (k ∈ strongStrategyIdxs s ∨ k = 8 ∨ k = 9) ∧
        (env.query s k).any (fun b => b) = true := by
  unfold _find_first_matching_field
  rw [findSome?_isSome_iff]
  constructor
  · rintro ⟨⟨s, k⟩, hmem, hx⟩
    obtain ⟨hs, hk⟩ := (mem_candidateKeys synonyms s k).mp hmem
    refine ⟨s, hs, k, hk, ?_⟩
    rcases hfv : _first_visible (env.query s k) with _ | i
    · rw [hfv] at hx
      simp at hx
    · unfold _first_visible at hfv
      have : ((env.query s k).findIdx? (fun b => b)).isSome =
          (env.query s k).any (fun b => b) := List.findIdx?_isSome
      rw [hfv] at this
      exact this.symm
  · rintro ⟨s, hs, k, hk, hq⟩
    refine ⟨(s, k), (mem_candidateKeys synonyms s k).mpr ⟨hs, hk⟩, ?_⟩
    rcases hfv : _first_visible (env.query s k) with _ | i
    · unfold _first_visible at hfv
      have : ((env.query s k).findIdx? (fun b => b)).isSome =
          (env.query s k).any (fun b => b) := List.findIdx?_isSome
      rw [hfv] at this
      simp [hq] at this
    · rfl

theorem get_field_of_isSome_iff (ctxs : List QueryEnv) (synonyms : List String) :
    (get_field_of ctxs synonyms).isSome = true ↔
      ∃ env ∈ ctxs, ∃ s ∈ synonyms, ∃ k, (k ∈ strongStrategyIdxs s ∨ k = 8 ∨ k = 9) ∧
        (env.query s k).any (fun b => b) = true := by
  unfold get_field_of
  rw [findSome?_isSome_iff]
  constructor
  · rintro ⟨ci, hci, hx⟩
    rw [List.mem_range] at hci
    rcases hget : ctxs.get? ci with _ | env
    · rw [hget] at hx
      simp at hx
    · rw [hget] at hx
      simp only at hx
      have henv : env ∈ ctxs := by
        have := List.get?_eq_some.mp hget
        obtain ⟨hlt, he⟩ := this
        rw [← he]
        exact List.get_mem ctxs ci hlt
      rcases hfind : _find_first_matching_field env synonyms with _ | hit
      · rw [hfind] at hx
        simp at hx
      · have : (_find_first_matching_field env synonyms).isSome = true := by
          rw [hfind]
          rfl
        exact ⟨env, henv, (find_first_matching_field_isSome_iff env synonyms).mp this⟩
  · rintro ⟨env, henv, hrest⟩
    obtain ⟨⟨ci, hlt⟩, he⟩ := List.mem_iff_get.mp henv
    refine ⟨ci, List.mem_range.mpr hlt, ?_⟩
    have hget : ctxs.get? ci = some env := by
      rw [List.get?_eq_get hlt, he]
    have hsome : (_find_first_matching_field env synonyms).isSome = true :=
      (find_first_matching_field_isSome_iff env synonyms).mpr hrest
    rcases hfind : _find_first_matching_field env synonyms with _ | hit
    · rw [hfind] at hsome
      simp at hsome
    · simp only [hget, hfind]
      rfl

/-- C9: if under some synonym in `S` some query strategy matches a visible
element in some context, then `get_field_of` returns a found field — not the
`NotFoundField` sentinel — for every permutation of `S`: resolution success
does not depend on the order of the synonym list. -/
theorem C9_resolution_success_perm_invariant
    (ctxs : List QueryEnv) (S S2 : List String) (hperm : S.Perm S2)
    (hex : ∃ env ∈ ctxs, ∃ s ∈ S, ∃ k,
      (k ∈ strongStrategyIdxs s ∨ k = 8 ∨ k = 9) ∧
      (env.query s k).any (fun b => b) = true) :
    get_field_of ctxs S2 ≠ none := by
  have h2 : ∃ env ∈ ctxs, ∃ s ∈ S2, ∃ k,
      (k ∈ strongStrategyIdxs s ∨ k = 8 ∨ k = 9) ∧
      (env.query s k).any (fun b => b) = true := by
    obtain ⟨env, henv, s, hs, k, hk, hq⟩ := hex
    exact ⟨env, henv, s, hperm.mem_iff.mp hs, k, hk, hq⟩
  have hsome := (get_field_of_isSome_iff ctxs S2).mpr h2
  intro hnone
  rw [hnone] at hsome
  simp at hsome

/-- Witness for C9 at a concrete page: one context where label strategy 0
under synonym `"Email"` matches one visible element; swapping the synonym
list to `["Mail", "Email"]` still resolves the field. -/
theorem C9_resolution_success_perm_invariant_witness :
    get_field_of [⟨fun s k => if s = "Email" ∧ k = 0 then [true] else []⟩]
      ["Mail", "Email"] ≠ none := by
  refine C9_resolution_success_perm_invariant
    [⟨fun s k => if s = "Email" ∧ k = 0 then [true] else []⟩]
    ["Email", "Mail"] ["Mail", "Email"] (List.Perm.swap _ _ _) ?_
  refine ⟨⟨fun s k => if s = "Email" ∧ k = 0 then [true] else []⟩, by simp,
    "Email", by simp, 0, Or.inl ?_, ?_⟩
  · show 0 ∈ strongStrategyIdxs "Email"
    decide
  · simp

end AIRR
